import Mathlib

/-!
# The Bintray example client (`examples/jfrog_client.go`)

A shallow embedding of the provisioning program: the manifest types, the thin
wrappers around the services manager, the three passes (`cleanup`,
`checkDetails`, the upload loop of `main`) and theorems about the sequence of
remote calls each pass issues.

Conventions of the embedding.

* The services manager (`bintray.ServicesManager`) is a collaborator whose code
  is not part of the program; it is a record of deterministic transitions over
  an abstract remote state `σ`, and every theorem quantifies over it.
* Every remote call is recorded, arguments and results, as an `Event`; a run
  yields the list of events in the order of the calls.
* `os.Exit(1)` ends the run: an `Outcome` carries `exit = some 1` and nothing
  is executed after it.
* A path built by `packages.CreatePath(x)` or `versions.CreatePath(x)` is
  represented by the string `x` handed to that function.
* Console output (`fmt.Printf`, `PrettyPrint`) is not recorded.
-/

set_option linter.dupNamespace false

namespace JfrogClient

/-! ## Data model -/

/-- Go's `error` value: `none` is `nil`, `some msg` an error with that message. -/
abbrev GoError := Option String

/-- The library type `repositories.Path`, built by the program as the literal
`repositories.Path{Subject: .., Repo: ..}`. -/
structure RepoPath where
  Subject : String
  Repo : String
deriving DecidableEq, Repr

/-- Modelled from the spec: the library type `repositories.Config`, whose
declaration is not part of the program. The program reads the field
`RepoConfigFilePath`; the remaining fields are the opaque configuration blob. -/
structure RepoConfig where
  RepoConfigFilePath : String
  Blob : String
deriving DecidableEq, Repr

/-- Modelled from the spec: the library type `packages.Params`, whose
declaration is not part of the program. The program writes the field `Path`;
the remaining fields are the opaque configuration blob. -/
structure PackageParams where
  Path : String
  Blob : String
deriving DecidableEq, Repr

/-- Modelled from the spec: the library type `services.UploadParams`, whose
declaration is not part of the program. The program writes `Path` and reads
`Version` and `Publish`; the remaining fields are the opaque upload
descriptor. -/
structure UploadParams where
  Path : String
  Version : String
  Publish : Bool
  Blob : String
deriving DecidableEq, Repr

/-- The manifest entry `Package`. -/
structure Package where
  Package : String
  Config : PackageParams
  Upload : UploadParams
deriving DecidableEq, Repr

/-- The manifest entry `Repo`. -/
structure Repo where
  Name : String
  Subject : String
  Config : RepoConfig
  Packages : List Package
deriving DecidableEq, Repr

/-- The manifest `BintrayConfig`; the embedded struct `Bintray` contributes the
field `Repos`. -/
structure BintrayConfig where
  Threads : Int
  Cleanup : Bool
  Repos : List Repo
deriving DecidableEq, Repr

/-! ## Remote calls -/

/-- One remote call together with the values it returned. -/
inductive Event where
  | IsRepoExists (path : RepoPath) (ok : Bool) (err : GoError)
  | CreateReposIfNeeded (path : RepoPath) (config : RepoConfig) (configFile : String)
      (created : Bool) (err : GoError)
  | IsPackageExists (path : String) (ok : Bool) (err : GoError)
  | CreatePackage (params : PackageParams) (err : GoError)
  | DeletePackage (path : String) (err : GoError)
  | ExecDeleteRepoRest (path : RepoPath) (err : GoError)
  | UploadFiles (params : UploadParams) (uploaded : Int) (failed : Int) (err : GoError)
  | GpgSignVersion (path : String) (passphrase : String) (err : GoError)
  | PublishVersion (path : String) (err : GoError)
  | CalcMetadata (path : String) (ok : Bool) (err : GoError)
  | ShowPackage (path : String) (err : GoError)
deriving DecidableEq, Repr

/-- Modelled from the spec: the Remote Package Service collaborator
(`bintray.ServicesManager`), whose code is not part of the program. Each
operation is a synchronous request/response: from the arguments and the current
remote state it yields the returned values and the next remote state. -/
structure ServicesManager (σ : Type) where
  IsRepoExists : RepoPath → σ → (Bool × GoError) × σ
  CreateReposIfNeeded : RepoPath → RepoConfig → String → σ → (Bool × GoError) × σ
  IsPackageExists : String → σ → (Bool × GoError) × σ
  CreatePackage : PackageParams → σ → GoError × σ
  DeletePackage : String → σ → GoError × σ
  ExecDeleteRepoRest : RepoPath → σ → GoError × σ
  UploadFiles : UploadParams → σ → (Int × Int × GoError) × σ
  GpgSignVersion : String → String → σ → GoError × σ
  PublishVersion : String → σ → GoError × σ
  CalcMetadata : String → σ → (Bool × GoError) × σ
  ShowPackage : String → σ → GoError × σ

/-- What a piece of the program has done when control leaves it: the remote
calls it issued, the remote state it left, and the exit status when it ended
the process with `os.Exit`. -/
structure Outcome (σ : Type) where
  trace : List Event
  state : σ
  exit : Option Nat

/-- Sequential composition of statements: the continuation runs only when the
process is still alive. -/
def Outcome.andThen {σ : Type} (o : Outcome σ) (k : σ → Outcome σ) : Outcome σ :=
  match o.exit with
  | some _ => o
  | none => ⟨o.trace ++ (k o.state).trace, (k o.state).state, (k o.state).exit⟩

/-- The statement `for _, x := range xs { body }`, where the body may end the
process. -/
def forEach {σ α : Type} (body : α → σ → Outcome σ) : List α → σ → Outcome σ
  | [], s => ⟨[], s, none⟩
  | x :: xs, s => (body x s).andThen (forEach body xs)

/-- The call `errors.Wrap(err, msg)` of `github.com/pkg/errors`: `nil` stays
`nil`, an error gets the message prepended. -/
def errorsWrap (err : GoError) (msg : String) : GoError :=
  err.map (fun e => msg ++ ": " ++ e)

/-- The expression `fmt.Sprintf("%s/%s/%s", repo.Subject, repo.Name, pack.Package)`. -/
def pkgString (repo : Repo) (pack : Package) : String :=
  repo.Subject ++ "/" ++ repo.Name ++ "/" ++ pack.Package

/-- The expression `fmt.Sprintf("%s/%s", pkg, pack.Upload.Version)`. -/
def versionString (repo : Repo) (pack : Package) : String :=
  pkgString repo pack ++ "/" ++ pack.Upload.Version

/-- The literal `repositories.Path{Subject: repo.Subject, Repo: repo.Name}`. -/
def repoPath (repo : Repo) : RepoPath :=
  { Subject := repo.Subject, Repo := repo.Name }

/-! ## The wrappers around the services manager -/

variable {σ : Type}

/-- The method `deleteRepo`: its error and the call it made. -/
def deleteRepo (bt : ServicesManager σ) (repo : Repo) (s : σ) : GoError × Outcome σ :=
  let r := bt.ExecDeleteRepoRest (repoPath repo) s
  (errorsWrap r.1 "Repo non-existent",
   ⟨[Event.ExecDeleteRepoRest (repoPath repo) r.1], r.2, none⟩)

/-- The method `deletePackage`. -/
def deletePackage (bt : ServicesManager σ) (repo : Repo) (pack : Package) (s : σ) :
    GoError × Outcome σ :=
  let pkg := pkgString repo pack
  let r := bt.DeletePackage pkg s
  (errorsWrap r.1 "Package non-existent", ⟨[Event.DeletePackage pkg r.1], r.2, none⟩)

/-- The method `createRepo`. -/
def createRepo (bt : ServicesManager σ) (repo : Repo) (s : σ) :
    (Bool × GoError) × Outcome σ :=
  let r := bt.CreateReposIfNeeded (repoPath repo) repo.Config repo.Config.RepoConfigFilePath s
  (r.1,
   ⟨[Event.CreateReposIfNeeded (repoPath repo) repo.Config repo.Config.RepoConfigFilePath
      r.1.1 r.1.2], r.2, none⟩)

/-- The method `createPackage`: it stores the path in `pack.Config.Path` and
hands `pack.Config` to the services manager. -/
def createPackage (bt : ServicesManager σ) (repo : Repo) (pack : Package) (s : σ) :
    GoError × Outcome σ :=
  let pkg := pkgString repo pack
  let config : PackageParams := { pack.Config with Path := pkg }
  let r := bt.CreatePackage config s
  (r.1, ⟨[Event.CreatePackage config r.1], r.2, none⟩)

/-- The method `publishPackage`. -/
def publishPackage (bt : ServicesManager σ) (repo : Repo) (pack : Package) (s : σ) :
    Outcome σ :=
  let r := bt.PublishVersion (versionString repo pack) s
  ⟨[Event.PublishVersion (versionString repo pack) r.1], r.2, none⟩

/-- The method `uploadPackage`: it stores the version path in
`pack.Upload.Path`, so it also yields the updated package. -/
def uploadPackage (bt : ServicesManager σ) (repo : Repo) (pack : Package) (s : σ) :
    Package × Outcome σ :=
  let upload : UploadParams := { pack.Upload with Path := versionString repo pack }
  let r := bt.UploadFiles upload s
  ({ pack with Upload := upload },
   ⟨[Event.UploadFiles upload r.1.1 r.1.2.1 r.1.2.2], r.2, none⟩)

/-- The method `signPackageVersion`; `passphrase` is the value of the
environment variable `BINTRAY_ADMIN_GPG_PASSPHRASE`. -/
def signPackageVersion (bt : ServicesManager σ) (passphrase : String) (repo : Repo)
    (pack : Package) (s : σ) : Outcome σ :=
  let r := bt.GpgSignVersion (versionString repo pack) passphrase s
  ⟨[Event.GpgSignVersion (versionString repo pack) passphrase r.1], r.2, none⟩

/-- The method `calcMetadata`. -/
def calcMetadata (bt : ServicesManager σ) (repo : Repo) (pack : Package) (s : σ) :
    Bool × Outcome σ :=
  let r := bt.CalcMetadata (versionString repo pack) s
  (r.1.1, ⟨[Event.CalcMetadata (versionString repo pack) r.1.1 r.1.2], r.2, none⟩)

/-- The method `showPackage`. -/
def showPackage (bt : ServicesManager σ) (repo : Repo) (pack : Package) (s : σ) :
    Outcome σ :=
  let r := bt.ShowPackage (pkgString repo pack) s
  ⟨[Event.ShowPackage (pkgString repo pack) r.1], r.2, none⟩

/-! ## The passes -/

/-- The part of the body of `checkDetails` under the comment `// Repository`. -/
def checkDetailsRepository (bt : ServicesManager σ) (repo : Repo) (s : σ) : Outcome σ :=
  let q := bt.IsRepoExists (repoPath repo) s
  let RepoExistsOk := q.1.1
  let asked : Outcome σ := ⟨[Event.IsRepoExists (repoPath repo) q.1.1 q.1.2], q.2, none⟩
  if RepoExistsOk != true then
    asked.andThen fun s1 =>
      let c := createRepo bt repo s1
      match c.1.2 with
      | some _ => { c.2 with exit := some 1 }
      | none => c.2
  else
    asked

/-- The part of the body of `checkDetails` under the comment `// Package`. -/
def checkDetailsPackage (bt : ServicesManager σ) (repo : Repo) (pack : Package) (s : σ) :
    Outcome σ :=
  let pkg := pkgString repo pack
  let q := bt.IsPackageExists pkg s
  let PackageExistsOk := q.1.1
  let asked : Outcome σ := ⟨[Event.IsPackageExists pkg q.1.1 q.1.2], q.2, none⟩
  if PackageExistsOk != true then
    asked.andThen fun s1 =>
      let c := createPackage bt repo pack s1
      match c.1 with
      | some _ => { c.2 with exit := some 1 }
      | none => c.2
  else
    asked

/-- The body of the inner loop of `checkDetails`. -/
def checkDetailsBody (bt : ServicesManager σ) (repo : Repo) (pack : Package) (s : σ) :
    Outcome σ :=
  (checkDetailsRepository bt repo s).andThen (checkDetailsPackage bt repo pack)

/-- The method `checkDetails`. -/
def checkDetails (bt : ServicesManager σ) (config : BintrayConfig) (s : σ) : Outcome σ :=
  forEach (fun repo => forEach (fun pack => checkDetailsBody bt repo pack) repo.Packages)
    config.Repos s

/-- The body of the inner loop of `cleanup`. -/
def cleanupBody (bt : ServicesManager σ) (repo : Repo) (pack : Package) (s : σ) :
    Outcome σ :=
  let d := deletePackage bt repo pack s
  match d.1 with
  | some _ => d.2
  | none => d.2.andThen fun s1 => (deleteRepo bt repo s1).2

/-- The method `cleanup`. -/
def cleanup (bt : ServicesManager σ) (config : BintrayConfig) (s : σ) : Outcome σ :=
  forEach (fun repo => forEach (fun pack => cleanupBody bt repo pack) repo.Packages)
    config.Repos s

/-- The body of the inner loop of `main`. -/
def mainBody (bt : ServicesManager σ) (passphrase : String) (repo : Repo) (pack : Package)
    (s : σ) : Outcome σ :=
  let u := uploadPackage bt repo pack s
  let pack := u.1
  u.2.andThen fun s1 =>
    (signPackageVersion bt passphrase repo pack s1).andThen fun s2 =>
      (if pack.Upload.Publish == true then publishPackage bt repo pack s2
       else ⟨[], s2, none⟩).andThen fun s3 =>
        (calcMetadata bt repo pack s3).2.andThen fun s4 =>
          showPackage bt repo pack s4

/-- The nested loops at the end of `main`. -/
def mainLoop (bt : ServicesManager σ) (passphrase : String) (config : BintrayConfig) (s : σ) :
    Outcome σ :=
  forEach (fun repo => forEach (fun pack => mainBody bt passphrase repo pack) repo.Packages)
    config.Repos s

/-- The function `main`, from the point where `initConfig` has loaded the
manifest `config` and built the services manager `bt`. -/
def main (bt : ServicesManager σ) (passphrase : String) (config : BintrayConfig) (s : σ) :
    Outcome σ :=
  (if config.Cleanup then (cleanup bt config s).andThen (checkDetails bt config)
   else ⟨[], s, none⟩).andThen (mainLoop bt passphrase config)

/-! ## Vocabulary of the statements -/

/-- A remote call without the values it returned. -/
inductive Call where
  | IsRepoExists (path : RepoPath)
  | CreateReposIfNeeded (path : RepoPath) (config : RepoConfig) (configFile : String)
  | IsPackageExists (path : String)
  | CreatePackage (params : PackageParams)
  | DeletePackage (path : String)
  | ExecDeleteRepoRest (path : RepoPath)
  | UploadFiles (params : UploadParams)
  | GpgSignVersion (path : String) (passphrase : String)
  | PublishVersion (path : String)
  | CalcMetadata (path : String)
  | ShowPackage (path : String)
deriving DecidableEq, Repr

/-- The call of an event. -/
def Event.call : Event → Call
  | .IsRepoExists p _ _ => .IsRepoExists p
  | .CreateReposIfNeeded p c f _ _ => .CreateReposIfNeeded p c f
  | .IsPackageExists p _ _ => .IsPackageExists p
  | .CreatePackage p _ => .CreatePackage p
  | .DeletePackage p _ => .DeletePackage p
  | .ExecDeleteRepoRest p _ => .ExecDeleteRepoRest p
  | .UploadFiles p _ _ _ => .UploadFiles p
  | .GpgSignVersion p q _ => .GpgSignVersion p q
  | .PublishVersion p _ => .PublishVersion p
  | .CalcMetadata p _ _ => .CalcMetadata p
  | .ShowPackage p _ => .ShowPackage p

/-- The (repository, package) pairs of a manifest, in manifest order. -/
def manifestPairs (repos : List Repo) : List (Repo × Package) :=
  repos.flatMap fun repo => repo.Packages.map fun pack => (repo, pack)

/-- The paths of the `IsRepoExists` queries of a trace, in order. -/
def repoQueries (t : List Event) : List RepoPath :=
  t.filterMap fun ev => match ev with
    | .IsRepoExists p _ _ => some p
    | _ => none

/-- The paths of the `IsPackageExists` queries of a trace, in order. -/
def packageQueries (t : List Event) : List String :=
  t.filterMap fun ev => match ev with
    | .IsPackageExists p _ _ => some p
    | _ => none

/-- No creation call of the services manager ever returns an error. -/
def NoCreationFails (bt : ServicesManager σ) : Prop :=
  (∀ p c f s, (bt.CreateReposIfNeeded p c f s).1.2 = none) ∧
  (∀ p s, (bt.CreatePackage p s).1 = none)

/-- A services manager without state that answers every call of a kind with a
fixed value. -/
def constRemote (repoQ repoC pkgQ : Bool × GoError) (pkgC del : GoError) :
    ServicesManager Unit where
  IsRepoExists := fun _ s => (repoQ, s)
  CreateReposIfNeeded := fun _ _ _ s => (repoC, s)
  IsPackageExists := fun _ s => (pkgQ, s)
  CreatePackage := fun _ s => (pkgC, s)
  DeletePackage := fun _ s => (del, s)
  ExecDeleteRepoRest := fun _ s => (del, s)
  UploadFiles := fun _ s => ((1, 0, none), s)
  GpgSignVersion := fun _ _ s => (none, s)
  PublishVersion := fun _ s => (none, s)
  CalcMetadata := fun _ s => ((true, none), s)
  ShowPackage := fun _ s => (none, s)

/-- A package entry for the examples. -/
def demoPackage (name : String) (publish : Bool) : Package :=
  { Package := name, Config := ⟨"", "pkg-" ++ name⟩,
    Upload := ⟨"", "1.0", publish, "files-" ++ name⟩ }

/-- A repository entry for the examples. -/
def demoRepo (name : String) (packs : List Package) : Repo :=
  { Name := name, Subject := "acme", Config := ⟨name ++ ".json", "cfg-" ++ name⟩,
    Packages := packs }

/-- The event is a `CreateReposIfNeeded` call. -/
def Event.isRepoCreation : Event → Bool
  | .CreateReposIfNeeded _ _ _ _ _ => true
  | _ => false

/-- The event is a `CreatePackage` call. -/
def Event.isPackageCreation : Event → Bool
  | .CreatePackage _ _ => true
  | _ => false

/-- The event is an `IsRepoExists` query for `p` that answered false. -/
def Event.isRepoAbsentAnswer (p : RepoPath) : Event → Bool
  | .IsRepoExists q false _ => q == p
  | _ => false

/-- The event is a `CreateReposIfNeeded` call for `p`. -/
def Event.isRepoCreationAt (p : RepoPath) : Event → Bool
  | .CreateReposIfNeeded q _ _ _ _ => q == p
  | _ => false

/-- Nothing exists on this remote and every creation succeeds. -/
def freshRemote : ServicesManager Unit :=
  constRemote (false, none) (true, none) (false, none) none none

/-- Everything exists on this remote. -/
def provisionedRemote : ServicesManager Unit :=
  constRemote (true, none) (false, none) (true, none) none none

/-- A manifest with a repository of two packages and a repository of none. -/
def demoConfig : BintrayConfig :=
  { Threads := 1, Cleanup := true,
    Repos := [demoRepo "r1" [demoPackage "p1" true, demoPackage "p2" false], demoRepo "r0" []] }

/-- The `IsRepoExists` query of the iteration for `repo`, with its answer. -/
def repoQueryEvent (repo : Repo) (ok : Bool) (err : GoError) : Event :=
  .IsRepoExists (repoPath repo) ok err

/-- The `CreateReposIfNeeded` call of `createRepo` for `repo`, with its result. -/
def repoCreateEvent (repo : Repo) (created : Bool) (err : GoError) : Event :=
  .CreateReposIfNeeded (repoPath repo) repo.Config repo.Config.RepoConfigFilePath created err

/-- The `IsPackageExists` query of the iteration for `pack` under `repo`. -/
def packageQueryEvent (repo : Repo) (pack : Package) (ok : Bool) (err : GoError) : Event :=
  .IsPackageExists (pkgString repo pack) ok err

/-- The `CreatePackage` call of `createPackage` for `pack` under `repo`. -/
def packageCreateEvent (repo : Repo) (pack : Package) (err : GoError) : Event :=
  .CreatePackage { pack.Config with Path := pkgString repo pack } err

/-- The event is a creation call that returned an error. -/
def Event.creationFailed : Event → Bool
  | .CreateReposIfNeeded _ _ _ _ (some _) => true
  | .CreatePackage _ (some _) => true
  | _ => false

/-- Either the run is alive and no creation call has failed, or it has ended
with status 1 and its last call, and only that one, is a failed creation. -/
def EndsAtFailure (o : Outcome σ) : Prop :=
  (o.exit = none ∧ ∀ ev ∈ o.trace, ev.creationFailed = false) ∨
  (o.exit = some 1 ∧ ∃ pre ev, o.trace = pre ++ [ev] ∧ ev.creationFailed = true ∧
    ∀ e ∈ pre, e.creationFailed = false)

/-- A remote with a counter of `IsRepoExists` queries: the first query answers
true, every later one false; creating a repository fails, packages are absent
and creating them succeeds. -/
def flakyRemote : ServicesManager Nat where
  IsRepoExists := fun _ s => ((s == 0, none), s + 1)
  CreateReposIfNeeded := fun _ _ _ s => ((false, some "503"), s)
  IsPackageExists := fun _ s => ((false, none), s)
  CreatePackage := fun _ s => (none, s)
  DeletePackage := fun _ s => (none, s)
  ExecDeleteRepoRest := fun _ s => (none, s)
  UploadFiles := fun _ s => ((1, 0, none), s)
  GpgSignVersion := fun _ _ s => (none, s)
  PublishVersion := fun _ s => (none, s)
  CalcMetadata := fun _ s => ((true, none), s)
  ShowPackage := fun _ s => (none, s)

/-- The calls of one iteration of the upload loop of `main`. -/
def uploadCalls (passphrase : String) (repo : Repo) (pack : Package) : List Call :=
  [Call.UploadFiles { pack.Upload with Path := versionString repo pack },
    Call.GpgSignVersion (versionString repo pack) passphrase] ++
  (if pack.Upload.Publish = true then [Call.PublishVersion (versionString repo pack)] else []) ++
  [Call.CalcMetadata (versionString repo pack), Call.ShowPackage (pkgString repo pack)]

/-- Every existence query fails with an error and reports false; every creation
is refused. -/
def refusingRemote : ServicesManager Unit :=
  constRemote (false, some "timeout") (false, some "denied") (false, some "timeout")
    (some "denied") none

/-- The services manager that answers as `bt` does, with the error of every
existence query replaced by `nil`. -/
def ignoreCheckErrors (bt : ServicesManager σ) : ServicesManager σ :=
  { bt with
    IsRepoExists := fun p s => (((bt.IsRepoExists p s).1.1, none), (bt.IsRepoExists p s).2)
    IsPackageExists := fun p s =>
      (((bt.IsPackageExists p s).1.1, none), (bt.IsPackageExists p s).2) }

/-- The event with the error of an existence query replaced by `nil`. -/
def Event.dropCheckError : Event → Event
  | .IsRepoExists p ok _ => .IsRepoExists p ok none
  | .IsPackageExists p ok _ => .IsPackageExists p ok none
  | ev => ev

/-- The outcome with every event of its trace rewritten. -/
def Outcome.mapTrace (f : Event → Event) (o : Outcome σ) : Outcome σ :=
  ⟨o.trace.map f, o.state, o.exit⟩

/-- The event is an `IsPackageExists` query or a `CreatePackage` call. -/
def Event.isPackageEvent : Event → Bool
  | .IsPackageExists _ _ _ => true
  | .CreatePackage _ _ => true
  | _ => false

/-- The event is an `IsPackageExists` query for `k` that answered false. -/
def Event.isPackageAbsentAnswer (k : String) : Event → Bool
  | .IsPackageExists q false _ => q == k
  | _ => false

/-- The event is a `CreatePackage` call for the path `k`. -/
def Event.isPackageCreationAt (k : String) : Event → Bool
  | .CreatePackage params _ => params.Path == k
  | _ => false

/-- The event is an existence query that answered false. -/
def Event.isAbsentAnswer : Event → Bool
  | .IsRepoExists _ false _ => true
  | .IsPackageExists _ false _ => true
  | _ => false

/-- A remote that remembers what has been created: a repository or package
exists exactly when it has been created before, and every creation succeeds. -/
def growingRemote : ServicesManager (List RepoPath × List String) where
  IsRepoExists := fun p s => ((decide (p ∈ s.1), none), s)
  CreateReposIfNeeded := fun p _ _ s => ((true, none), (p :: s.1, s.2))
  IsPackageExists := fun k s => ((decide (k ∈ s.2), none), s)
  CreatePackage := fun params s => (none, (s.1, params.Path :: s.2))
  DeletePackage := fun _ s => (none, s)
  ExecDeleteRepoRest := fun _ s => (none, s)
  UploadFiles := fun _ s => ((1, 0, none), s)
  GpgSignVersion := fun _ _ s => (none, s)
  PublishVersion := fun _ s => (none, s)
  CalcMetadata := fun _ s => ((true, none), s)
  ShowPackage := fun _ s => (none, s)

/-- The event is a deletion call. -/
def Event.isDeletion : Event → Bool
  | .DeletePackage _ _ => true
  | .ExecDeleteRepoRest _ _ => true
  | _ => false

/-- The event is an existence query or a creation call. -/
def Event.isCheckOrCreate : Event → Bool
  | .IsRepoExists _ _ _ => true
  | .CreateReposIfNeeded _ _ _ _ _ => true
  | .IsPackageExists _ _ _ => true
  | .CreatePackage _ _ => true
  | _ => false

/-- The event is an upload, sign, publish, metadata or show call. -/
def Event.isUploadStep : Event → Bool
  | .UploadFiles _ _ _ _ => true
  | .GpgSignVersion _ _ _ => true
  | .PublishVersion _ _ => true
  | .CalcMetadata _ _ _ => true
  | .ShowPackage _ _ => true
  | _ => false

/-- The event is an `ExecDeleteRepoRest` call. -/
def Event.isRepoDeletion : Event → Bool
  | .ExecDeleteRepoRest _ _ => true
  | _ => false

/-- The event is a `DeletePackage` call that returned no error. -/
def Event.isPackageDeleted : Event → Bool
  | .DeletePackage _ none => true
  | _ => false

/-- The paths of the `DeletePackage` calls of a trace, in order. -/
def packageDeletions (t : List Event) : List String :=
  t.filterMap fun ev => match ev with
    | .DeletePackage p _ => some p
    | _ => none

/-- Package deletion is refused for the package `acme/r1/p1` and succeeds for
every other one; repository deletion always fails. -/
def pickyRemote : ServicesManager Unit :=
  { constRemote (true, none) (false, none) (true, none) none (some "locked") with
    DeletePackage := fun p s => (if p = "acme/r1/p1" then some "busy" else none, s) }

/-- The manifest `demoConfig` with the cleanup flag off. -/
def uploadOnlyConfig : BintrayConfig :=
  { demoConfig with Cleanup := false }

/-- The manifest cut short: the repositories `pre`, followed by `repo` with only
the packages `packs`. With `config.Repos = pre ++ repo :: post` and
`repo.Packages = packs ++ pack :: rest`, a pass over this manifest is the part
of the pass over `config` that comes before the iteration of `pack`. -/
def manifestUpTo (config : BintrayConfig) (pre : List Repo) (repo : Repo)
    (packs : List Package) : BintrayConfig :=
  { config with Repos := pre ++ [{ repo with Packages := packs }] }

/-- The result of the `CreateReposIfNeeded` call that an iteration of
`checkDetails` for `repo`, started in the remote state `s`, makes after its
`IsRepoExists` query. -/
def repoCreation (bt : ServicesManager σ) (repo : Repo) (s : σ) : (Bool × GoError) × σ :=
  bt.CreateReposIfNeeded (repoPath repo) repo.Config repo.Config.RepoConfigFilePath
    (bt.IsRepoExists (repoPath repo) s).2

/-- The remote state in which an iteration of `checkDetails` for `repo`,
started in the state `s`, issues its `IsPackageExists` query: the state left by
the repository query when it answered true, and by the repository creation
otherwise. -/
def stateAtPackageQuery (bt : ServicesManager σ) (repo : Repo) (s : σ) : σ :=
  if (bt.IsRepoExists (repoPath repo) s).1.1 = true then (bt.IsRepoExists (repoPath repo) s).2
  else (repoCreation bt repo s).2

/-- The result of the `IsPackageExists` query of an iteration of `checkDetails`
for `pack` under `repo`, started in the remote state `s`. -/
def packageAnswer (bt : ServicesManager σ) (repo : Repo) (pack : Package) (s : σ) :
    (Bool × GoError) × σ :=
  bt.IsPackageExists (pkgString repo pack) (stateAtPackageQuery bt repo s)

/-- Modelled from the spec: what the absent services manager returns when an
existence check fails. An existence-check failure reports no existence: beside
a non-nil error the boolean is false, the zero value. -/
def ErrImpliesAbsent (bt : ServicesManager σ) : Prop :=
  (∀ p s, (bt.IsRepoExists p s).1.2 ≠ none → (bt.IsRepoExists p s).1.1 = false) ∧
  (∀ k s, (bt.IsPackageExists k s).1.2 ≠ none → (bt.IsPackageExists k s).1.1 = false)

/-- Every existence query fails with an error and reports false; every creation
succeeds. -/
def timeoutRemote : ServicesManager Unit :=
  constRemote (false, some "timeout") (true, none) (false, some "timeout") none none

/-! ## Basic facts about sequencing and loops -/

theorem andThen_of_exit_none (o : Outcome σ) (k : σ → Outcome σ) (h : o.exit = none) :
    o.andThen k = ⟨o.trace ++ (k o.state).trace, (k o.state).state, (k o.state).exit⟩ := by
  unfold Outcome.andThen
  rw [h]

theorem andThen_of_exit_some (o : Outcome σ) (k : σ → Outcome σ) (c : Nat)
    (h : o.exit = some c) : o.andThen k = o := by
  unfold Outcome.andThen
  rw [h]

theorem andThen_assoc (o : Outcome σ) (k k' : σ → Outcome σ) :
    (o.andThen k).andThen k' = o.andThen fun s => (k s).andThen k' := by
  cases ho : o.exit with
  | some c =>
    rw [andThen_of_exit_some o k c ho, andThen_of_exit_some o k' c ho,
      andThen_of_exit_some o _ c ho]
  | none =>
    rw [andThen_of_exit_none o k ho, andThen_of_exit_none o _ ho]
    cases hk : (k o.state).exit with
    | some c =>
      rw [andThen_of_exit_some _ k' c (by simp [hk]),
        andThen_of_exit_some (k o.state) k' c hk, hk]
    | none =>
      rw [andThen_of_exit_none _ k' (by simp [hk]),
        andThen_of_exit_none (k o.state) k' hk]
      simp

@[simp] theorem forEach_nil {α : Type} (body : α → σ → Outcome σ) (s : σ) :
    forEach body [] s = ⟨[], s, none⟩ := rfl

@[simp] theorem forEach_cons {α : Type} (body : α → σ → Outcome σ) (x : α) (xs : List α)
    (s : σ) : forEach body (x :: xs) s = (body x s).andThen (forEach body xs) := rfl

theorem andThen_pure_left (s : σ) (k : σ → Outcome σ) :
    (⟨[], s, none⟩ : Outcome σ).andThen k = k s := by
  rw [andThen_of_exit_none _ k rfl]
  simp

theorem forEach_append {α : Type} (body : α → σ → Outcome σ) (xs ys : List α) (s : σ) :
    forEach body (xs ++ ys) s = (forEach body xs s).andThen (forEach body ys) := by
  induction xs generalizing s with
  | nil => simp [andThen_pure_left]
  | cons x xs ih =>
    simp only [List.cons_append, forEach_cons, andThen_assoc]
    congr 1
    funext s1
    exact ih s1

theorem forEach_map {α β : Type} (body : β → σ → Outcome σ) (f : α → β) (xs : List α)
    (s : σ) : forEach body (xs.map f) s = forEach (fun x => body (f x)) xs s := by
  induction xs generalizing s with
  | nil => rfl
  | cons x xs ih =>
    simp only [List.map_cons, forEach_cons]
    congr 1
    funext s1
    exact ih s1

/-- The nested loops of a pass are one loop over the pairs of the manifest. -/
theorem forEach_nested (body : Repo → Package → σ → Outcome σ) (repos : List Repo) (s : σ) :
    forEach (fun repo => forEach (fun pack => body repo pack) repo.Packages) repos s
      = forEach (fun rp => body rp.1 rp.2) (manifestPairs repos) s := by
  induction repos generalizing s with
  | nil => rfl
  | cons r rs ih =>
    have hp : manifestPairs (r :: rs)
        = (r.Packages.map fun pack => (r, pack)) ++ manifestPairs rs := by
      simp [manifestPairs]
    rw [hp, forEach_append, forEach_map, forEach_cons]
    congr 1
    funext s1
    exact ih s1

theorem noCreationFails_freshRemote : NoCreationFails freshRemote :=
  ⟨fun _ _ _ _ => rfl, fun _ _ => rfl⟩

/-- A property of traces that holds of the empty trace, is kept by
concatenation and holds of every run of the body holds of the loop. -/
theorem forEach_trace_local {α : Type} (body : α → σ → Outcome σ) (P : List Event → Prop)
    (hnil : P []) (happ : ∀ t1 t2, P t1 → P t2 → P (t1 ++ t2)) (xs : List α)
    (hbody : ∀ x ∈ xs, ∀ s, P (body x s).trace) (s : σ) :
    P (forEach body xs s).trace := by
  induction xs generalizing s with
  | nil => simpa using hnil
  | cons x xs ih =>
    rw [forEach_cons]
    cases hx : (body x s).exit with
    | some c =>
      rw [andThen_of_exit_some _ _ c hx]
      exact hbody x (List.mem_cons_self _ _) s
    | none =>
      rw [andThen_of_exit_none _ _ hx]
      exact happ _ _ (hbody x (List.mem_cons_self _ _) s)
        (ih (fun y hy => hbody y (List.mem_cons_of_mem _ hy)) _)

theorem mem_manifestPairs (repos : List Repo) (rp : Repo × Package) :
    rp ∈ manifestPairs repos ↔ rp.1 ∈ repos ∧ rp.2 ∈ rp.1.Packages := by
  obtain ⟨r, p⟩ := rp
  simp only [manifestPairs, List.mem_flatMap, List.mem_map, Prod.mk.injEq]
  constructor
  · rintro ⟨a, ha, b, hb, rfl, rfl⟩
    exact ⟨ha, hb⟩
  · rintro ⟨h1, h2⟩
    exact ⟨r, h1, p, h2, rfl, rfl⟩

theorem manifestPairs_flatMap {β : Type} (g : Repo → Package → List β) (repos : List Repo) :
    (manifestPairs repos).flatMap (fun rp => g rp.1 rp.2)
      = repos.flatMap (fun repo => repo.Packages.flatMap fun pack => g repo pack) := by
  simp only [manifestPairs]
  induction repos with
  | nil => rfl
  | cons r rs ih =>
    simp only [List.flatMap_cons, List.flatMap_append, ih]
    congr 1
    induction r.Packages with
    | nil => rfl
    | cons p ps ihp => simp [ihp]

theorem manifestPairs_flatMap_singleton {β : Type} (g : Repo → Package → β)
    (repos : List Repo) :
    (manifestPairs repos).flatMap (fun rp => [g rp.1 rp.2])
      = repos.flatMap (fun repo => repo.Packages.map fun pack => g repo pack) := by
  rw [manifestPairs_flatMap (fun repo pack => [g repo pack])]
  congr 1
  funext repo
  induction repo.Packages with
  | nil => rfl
  | cons p ps ihp => simp [ihp]

/-- When no run of the body ends the process, the loop does not either, and a
projection of its trace is the concatenation of the projections of the
iterations. -/
theorem forEach_filterMap {α β : Type} (body : α → σ → Outcome σ) (f : Event → Option β)
    (g : α → List β)
    (hbody : ∀ x s, (body x s).exit = none ∧ (body x s).trace.filterMap f = g x)
    (xs : List α) (s : σ) :
    (forEach body xs s).exit = none ∧ (forEach body xs s).trace.filterMap f = xs.flatMap g := by
  induction xs generalizing s with
  | nil => simp
  | cons x xs ih =>
    rw [forEach_cons, andThen_of_exit_none _ _ (hbody x s).1]
    refine ⟨(ih _).1, ?_⟩
    simp [(hbody x s).2, (ih _).2]

theorem checkDetailsRepository_of_true (bt : ServicesManager σ) (repo : Repo) (s : σ)
    (h : (bt.IsRepoExists (repoPath repo) s).1.1 = true) :
    checkDetailsRepository bt repo s =
      ⟨[Event.IsRepoExists (repoPath repo) true (bt.IsRepoExists (repoPath repo) s).1.2],
        (bt.IsRepoExists (repoPath repo) s).2, none⟩ := by
  simp [checkDetailsRepository, h]

theorem checkDetailsRepository_of_false (bt : ServicesManager σ) (repo : Repo) (s : σ)
    (h : (bt.IsRepoExists (repoPath repo) s).1.1 = false) :
    checkDetailsRepository bt repo s =
      ⟨[Event.IsRepoExists (repoPath repo) false (bt.IsRepoExists (repoPath repo) s).1.2,
        Event.CreateReposIfNeeded (repoPath repo) repo.Config repo.Config.RepoConfigFilePath
          (bt.CreateReposIfNeeded (repoPath repo) repo.Config repo.Config.RepoConfigFilePath
            (bt.IsRepoExists (repoPath repo) s).2).1.1
          (bt.CreateReposIfNeeded (repoPath repo) repo.Config repo.Config.RepoConfigFilePath
            (bt.IsRepoExists (repoPath repo) s).2).1.2],
        (bt.CreateReposIfNeeded (repoPath repo) repo.Config repo.Config.RepoConfigFilePath
            (bt.IsRepoExists (repoPath repo) s).2).2,
        (bt.CreateReposIfNeeded (repoPath repo) repo.Config repo.Config.RepoConfigFilePath
            (bt.IsRepoExists (repoPath repo) s).2).1.2.map fun _ => 1⟩ := by
  simp only [checkDetailsRepository, createRepo, h]
  rw [if_pos (by decide), andThen_of_exit_none _ _ rfl]
  cases hc : (bt.CreateReposIfNeeded (repoPath repo) repo.Config
    repo.Config.RepoConfigFilePath (bt.IsRepoExists (repoPath repo) s).2).1.2 <;> simp [hc]

theorem checkDetailsPackage_of_true (bt : ServicesManager σ) (repo : Repo) (pack : Package)
    (s : σ) (h : (bt.IsPackageExists (pkgString repo pack) s).1.1 = true) :
    checkDetailsPackage bt repo pack s =
      ⟨[Event.IsPackageExists (pkgString repo pack) true
          (bt.IsPackageExists (pkgString repo pack) s).1.2],
        (bt.IsPackageExists (pkgString repo pack) s).2, none⟩ := by
  simp [checkDetailsPackage, h]

theorem checkDetailsPackage_of_false (bt : ServicesManager σ) (repo : Repo) (pack : Package)
    (s : σ) (h : (bt.IsPackageExists (pkgString repo pack) s).1.1 = false) :
    checkDetailsPackage bt repo pack s =
      ⟨[Event.IsPackageExists (pkgString repo pack) false
          (bt.IsPackageExists (pkgString repo pack) s).1.2,
        Event.CreatePackage { pack.Config with Path := pkgString repo pack }
          (bt.CreatePackage { pack.Config with Path := pkgString repo pack }
            (bt.IsPackageExists (pkgString repo pack) s).2).1],
        (bt.CreatePackage { pack.Config with Path := pkgString repo pack }
            (bt.IsPackageExists (pkgString repo pack) s).2).2,
        (bt.CreatePackage { pack.Config with Path := pkgString repo pack }
            (bt.IsPackageExists (pkgString repo pack) s).2).1.map fun _ => 1⟩ := by
  simp only [checkDetailsPackage, createPackage, h]
  rw [if_pos (by decide), andThen_of_exit_none _ _ rfl]
  cases hc : (bt.CreatePackage { pack.Config with Path := pkgString repo pack }
    (bt.IsPackageExists (pkgString repo pack) s).2).1 <;> simp [hc]
theorem checkDetailsBody_of_noCreationFails (bt : ServicesManager σ) (h : NoCreationFails bt)
    (repo : Repo) (pack : Package) (s : σ) :
    (checkDetailsBody bt repo pack s).exit = none ∧
      repoQueries (checkDetailsBody bt repo pack s).trace = [repoPath repo] ∧
      packageQueries (checkDetailsBody bt repo pack s).trace = [pkgString repo pack] := by
  obtain ⟨hr, hp⟩ := h
  unfold checkDetailsBody
  cases hq : (bt.IsRepoExists (repoPath repo) s).1.1 with
  | true =>
    rw [checkDetailsRepository_of_true bt repo s hq, andThen_of_exit_none _ _ rfl]
    cases hq2 : (bt.IsPackageExists (pkgString repo pack)
        (bt.IsRepoExists (repoPath repo) s).2).1.1 with
    | true =>
      rw [checkDetailsPackage_of_true bt repo pack _ hq2]
      simp [repoQueries, packageQueries]
    | false =>
      rw [checkDetailsPackage_of_false bt repo pack _ hq2]
      simp [repoQueries, packageQueries, hp]
  | false =>
    rw [checkDetailsRepository_of_false bt repo s hq, andThen_of_exit_none _ _ (by simp [hr])]
    cases hq2 : (bt.IsPackageExists (pkgString repo pack)
        (bt.CreateReposIfNeeded (repoPath repo) repo.Config repo.Config.RepoConfigFilePath
          (bt.IsRepoExists (repoPath repo) s).2).2).1.1 with
    | true =>
      rw [checkDetailsPackage_of_true bt repo pack _ hq2]
      simp [repoQueries, packageQueries]
    | false =>
      rw [checkDetailsPackage_of_false bt repo pack _ hq2]
      simp [repoQueries, packageQueries, hp]

/-- C1 as stated fails: on a remote where no creation fails, the repository with
two packages is queried twice and the repository with no packages is never
queried, so the `IsRepoExists` queries are not the list of the repositories. -/
theorem repo_queries_not_one_per_repository :
    NoCreationFails freshRemote ∧
      repoQueries (checkDetails freshRemote demoConfig ()).trace
        = [repoPath (demoRepo "r1" []), repoPath (demoRepo "r1" [])] ∧
      demoConfig.Repos.map repoPath = [repoPath (demoRepo "r1" []), repoPath (demoRepo "r0" [])] ∧
      repoQueries (checkDetails freshRemote demoConfig ()).trace ≠ demoConfig.Repos.map repoPath :=
  ⟨noCreationFails_freshRemote, by decide, by decide, by decide⟩

/-- C1, amended: when no creation fails, `checkDetails` runs to the end, its
`IsPackageExists` queries are exactly the packages of the manifest, flattened in
manifest order, and its `IsRepoExists` queries are the owning repositories of
those packages, one query per package (none for a repository without
packages). -/
theorem checkDetails_visits_pairs_in_order (bt : ServicesManager σ) (config : BintrayConfig)
    (s : σ) (h : NoCreationFails bt) :
    (checkDetails bt config s).exit = none ∧
      packageQueries (checkDetails bt config s).trace
        = config.Repos.flatMap (fun repo => repo.Packages.map fun pack => pkgString repo pack) ∧
      repoQueries (checkDetails bt config s).trace
        = config.Repos.flatMap (fun repo => repo.Packages.map fun _ => repoPath repo) := by
  unfold checkDetails
  rw [forEach_nested]
  have hb := checkDetailsBody_of_noCreationFails bt h
  refine ⟨(forEach_filterMap (fun rp : Repo × Package => checkDetailsBody bt rp.1 rp.2)
      (fun _ => (none : Option Unit)) (fun _ => [])
      (fun rp s1 => ⟨(hb rp.1 rp.2 s1).1, by simp⟩) _ s).1, ?_, ?_⟩
  · rw [← manifestPairs_flatMap_singleton]
    exact (forEach_filterMap (fun rp : Repo × Package => checkDetailsBody bt rp.1 rp.2) _
      (fun rp => [pkgString rp.1 rp.2])
      (fun rp s1 => ⟨(hb rp.1 rp.2 s1).1, (hb rp.1 rp.2 s1).2.2⟩) _ s).2
  · rw [← manifestPairs_flatMap_singleton (fun repo _ => repoPath repo)]
    exact (forEach_filterMap (fun rp : Repo × Package => checkDetailsBody bt rp.1 rp.2) _
      (fun rp => [repoPath rp.1])
      (fun rp s1 => ⟨(hb rp.1 rp.2 s1).1, (hb rp.1 rp.2 s1).2.1⟩) _ s).2

/-- An instance of the amended C1: nothing exists on the remote and the manifest
has a repository with two packages and one with none. -/
theorem checkDetails_visits_pairs_in_order_witness :
    NoCreationFails freshRemote ∧
      ((checkDetails freshRemote demoConfig ()).exit = none ∧
      packageQueries (checkDetails freshRemote demoConfig ()).trace
        = demoConfig.Repos.flatMap (fun repo => repo.Packages.map fun pack => pkgString repo pack) ∧
      repoQueries (checkDetails freshRemote demoConfig ()).trace
        = demoConfig.Repos.flatMap (fun repo => repo.Packages.map fun _ => repoPath repo)) :=
  ⟨noCreationFails_freshRemote,
    checkDetails_visits_pairs_in_order freshRemote demoConfig () noCreationFails_freshRemote⟩
/-- The five ways an iteration of `checkDetails` can go. -/
theorem checkDetailsBody_shape (bt : ServicesManager σ) (repo : Repo) (pack : Package)
    (s : σ) :
    ∃ re cb pe ke,
      ((checkDetailsBody bt repo pack s).trace
          = [repoQueryEvent repo true re, packageQueryEvent repo pack true pe] ∧
        (checkDetailsBody bt repo pack s).exit = none) ∨
      ((checkDetailsBody bt repo pack s).trace
          = [repoQueryEvent repo true re, packageQueryEvent repo pack false pe,
              packageCreateEvent repo pack ke] ∧
        (checkDetailsBody bt repo pack s).exit = ke.map fun _ => 1) ∨
      (∃ ce, (checkDetailsBody bt repo pack s).trace
          = [repoQueryEvent repo false re, repoCreateEvent repo cb (some ce)] ∧
        (checkDetailsBody bt repo pack s).exit = some 1) ∨
      ((checkDetailsBody bt repo pack s).trace
          = [repoQueryEvent repo false re, repoCreateEvent repo cb none,
              packageQueryEvent repo pack true pe] ∧
        (checkDetailsBody bt repo pack s).exit = none) ∨
      ((checkDetailsBody bt repo pack s).trace
          = [repoQueryEvent repo false re, repoCreateEvent repo cb none,
              packageQueryEvent repo pack false pe, packageCreateEvent repo pack ke] ∧
        (checkDetailsBody bt repo pack s).exit = ke.map fun _ => 1) := by
  unfold checkDetailsBody
  cases hq : (bt.IsRepoExists (repoPath repo) s).1.1 with
  | true =>
    rw [checkDetailsRepository_of_true bt repo s hq, andThen_of_exit_none _ _ rfl]
    cases hq2 : (bt.IsPackageExists (pkgString repo pack)
        (bt.IsRepoExists (repoPath repo) s).2).1.1 with
    | true =>
      rw [checkDetailsPackage_of_true bt repo pack _ hq2]
      exact ⟨_, false, _, none, Or.inl ⟨rfl, rfl⟩⟩
    | false =>
      rw [checkDetailsPackage_of_false bt repo pack _ hq2]
      exact ⟨_, false, _, _, Or.inr (Or.inl ⟨rfl, rfl⟩)⟩
  | false =>
    rw [checkDetailsRepository_of_false bt repo s hq]
    cases hc : (bt.CreateReposIfNeeded (repoPath repo) repo.Config
        repo.Config.RepoConfigFilePath (bt.IsRepoExists (repoPath repo) s).2).1.2 with
    | some ce =>
      rw [andThen_of_exit_some _ _ 1 (by simp [hc])]
      exact ⟨_, _, none, none, Or.inr (Or.inr (Or.inl ⟨ce, rfl, rfl⟩))⟩
    | none =>
      rw [andThen_of_exit_none _ _ (by simp)]
      cases hq2 : (bt.IsPackageExists (pkgString repo pack)
          (bt.CreateReposIfNeeded (repoPath repo) repo.Config repo.Config.RepoConfigFilePath
            (bt.IsRepoExists (repoPath repo) s).2).2).1.1 with
      | true =>
        rw [checkDetailsPackage_of_true bt repo pack _ hq2]
        exact ⟨_, _, _, none, Or.inr (Or.inr (Or.inr (Or.inl ⟨rfl, rfl⟩)))⟩
      | false =>
        rw [checkDetailsPackage_of_false bt repo pack _ hq2]
        exact ⟨_, _, _, _, Or.inr (Or.inr (Or.inr (Or.inr ⟨rfl, rfl⟩)))⟩
theorem andThen_trace (o : Outcome σ) (k : σ → Outcome σ) :
    (o.andThen k).trace = o.trace ++ (if o.exit = none then (k o.state).trace else []) := by
  cases h : o.exit with
  | some c => simp [andThen_of_exit_some o k c h]
  | none => simp [andThen_of_exit_none o k h]

theorem checkDetailsPackage_shape (bt : ServicesManager σ) (repo : Repo) (pack : Package)
    (s : σ) :
    ∃ pe ke,
      (checkDetailsPackage bt repo pack s).trace = [packageQueryEvent repo pack true pe] ∨
      (checkDetailsPackage bt repo pack s).trace
        = [packageQueryEvent repo pack false pe, packageCreateEvent repo pack ke] := by
  cases hq : (bt.IsPackageExists (pkgString repo pack) s).1.1 with
  | true =>
    rw [checkDetailsPackage_of_true bt repo pack s hq]
    exact ⟨_, none, Or.inl rfl⟩
  | false =>
    rw [checkDetailsPackage_of_false bt repo pack s hq]
    exact ⟨_, _, Or.inr rfl⟩

/-- C2 as stated fails: on a remote that reports every repository absent and
on which no creation fails, the repository without packages gets no
`CreateReposIfNeeded` call and the repository with two packages gets two. -/
theorem createRepo_not_once_per_repository :
    NoCreationFails freshRemote ∧
      (∀ p s, (freshRemote.IsRepoExists p s).1.1 = false) ∧
      (checkDetails freshRemote demoConfig ()).trace.countP
        (Event.isRepoCreationAt (repoPath (demoRepo "r0" []))) = 0 ∧
      (checkDetails freshRemote demoConfig ()).trace.countP
        (Event.isRepoCreationAt
          (repoPath (demoRepo "r1" [demoPackage "p1" true, demoPackage "p2" false]))) = 2 :=
  ⟨noCreationFails_freshRemote, fun _ _ => rfl, by decide, by decide⟩

/-- C3: if every `IsRepoExists` query that `checkDetails` issues for a
repository path answers true, `checkDetails` issues no `CreateReposIfNeeded`
call for that path. -/
theorem no_createRepo_when_repo_exists (bt : ServicesManager σ) (config : BintrayConfig)
    (s : σ) (p : RepoPath)
    (h : ∀ ok err, Event.IsRepoExists p ok err ∈ (checkDetails bt config s).trace → ok = true) :
    ∀ c f b e, Event.CreateReposIfNeeded p c f b e ∉ (checkDetails bt config s).trace := by
  have key : ∀ q c f b e, Event.CreateReposIfNeeded q c f b e ∈ (checkDetails bt config s).trace →
      ∃ err, Event.IsRepoExists q false err ∈ (checkDetails bt config s).trace := by
    unfold checkDetails
    rw [forEach_nested]
    refine forEach_trace_local (fun rp : Repo × Package => checkDetailsBody bt rp.1 rp.2)
      (fun t => ∀ q c f b e, Event.CreateReposIfNeeded q c f b e ∈ t →
        ∃ err, Event.IsRepoExists q false err ∈ t)
      (by simp) (fun t1 t2 h1 h2 q c f b e hm => ?_) _ (fun rp _ s1 q c f b e hm => ?_) s
    · rcases List.mem_append.1 hm with hm | hm
      · obtain ⟨err, he⟩ := h1 q c f b e hm
        exact ⟨err, List.mem_append_left _ he⟩
      · obtain ⟨err, he⟩ := h2 q c f b e hm
        exact ⟨err, List.mem_append_right _ he⟩
    · obtain ⟨re, cb, pe, ke, hs | hs | ⟨ce, hs⟩ | hs | hs⟩ :=
        checkDetailsBody_shape bt rp.1 rp.2 s1 <;>
      · rw [hs.1] at hm ⊢
        simp [repoQueryEvent, repoCreateEvent, packageQueryEvent, packageCreateEvent] at hm ⊢
        try exact hm.1
  intro c f b e hm
  obtain ⟨err, he⟩ := key p c f b e hm
  exact absurd (h false err he) (by decide)
/-- An instance of C3: the repository `acme/r1` on a remote where everything
exists. -/
theorem no_createRepo_when_repo_exists_witness :
    (∀ ok err, Event.IsRepoExists (repoPath (demoRepo "r1" [])) ok err
        ∈ (checkDetails provisionedRemote demoConfig ()).trace → ok = true) ∧
      (∀ c f b e, Event.CreateReposIfNeeded (repoPath (demoRepo "r1" [])) c f b e
        ∉ (checkDetails provisionedRemote demoConfig ()).trace) :=
  have hq : ∀ ok err, Event.IsRepoExists (repoPath (demoRepo "r1" [])) ok err
      ∈ (checkDetails provisionedRemote demoConfig ()).trace → ok = true := by
    intro ok err hm
    have ht : (checkDetails provisionedRemote demoConfig ()).trace
        = [Event.IsRepoExists ⟨"acme", "r1"⟩ true none,
            Event.IsPackageExists "acme/r1/p1" true none,
            Event.IsRepoExists ⟨"acme", "r1"⟩ true none,
            Event.IsPackageExists "acme/r1/p2" true none] := by decide
    rw [ht] at hm
    simp at hm
    exact hm.2.1
  ⟨hq, no_createRepo_when_repo_exists provisionedRemote demoConfig ()
    (repoPath (demoRepo "r1" [])) hq⟩

theorem mainBody_calls (bt : ServicesManager σ) (passphrase : String) (repo : Repo)
    (pack : Package) (s : σ) :
    (mainBody bt passphrase repo pack s).exit = none ∧
      (mainBody bt passphrase repo pack s).trace.map Event.call
        = uploadCalls passphrase repo pack := by
  unfold mainBody
  simp only [uploadPackage, signPackageVersion, calcMetadata, showPackage, publishPackage]
  cases hp : pack.Upload.Publish <;>
    simp [andThen_of_exit_none, uploadCalls, hp, Event.call, versionString, pkgString]

theorem cleanupBody_shape (bt : ServicesManager σ) (repo : Repo) (pack : Package) (s : σ) :
    (cleanupBody bt repo pack s).exit = none ∧
      ((∃ e, (cleanupBody bt repo pack s).trace
          = [Event.DeletePackage (pkgString repo pack) (some e)]) ∨
       (∃ e, (cleanupBody bt repo pack s).trace
          = [Event.DeletePackage (pkgString repo pack) none,
              Event.ExecDeleteRepoRest (repoPath repo) e])) := by
  unfold cleanupBody
  simp only [deletePackage, deleteRepo, errorsWrap]
  cases hd : (bt.DeletePackage (pkgString repo pack) s).1 with
  | some e => simp
  | none => simp [andThen_of_exit_none]

theorem endsAtFailure_andThen (o : Outcome σ) (k : σ → Outcome σ) (ho : EndsAtFailure o)
    (hk : ∀ s, EndsAtFailure (k s)) : EndsAtFailure (o.andThen k) := by
  rcases ho with ⟨hex, hall⟩ | ⟨hex, hrest⟩
  · rw [andThen_of_exit_none o k hex]
    rcases hk o.state with ⟨kex, kall⟩ | ⟨kex, pre, ev, htr, hev, hpre⟩
    · refine Or.inl ⟨kex, ?_⟩
      intro ev hev
      rcases List.mem_append.1 hev with h | h
      · exact hall ev h
      · exact kall ev h
    · refine Or.inr ⟨kex, o.trace ++ pre, ev, ?_, hev, ?_⟩
      · simp [htr]
      · intro e he
        rcases List.mem_append.1 he with h | h
        · exact hall e h
        · exact hpre e h
  · rw [andThen_of_exit_some o k 1 hex]
    exact Or.inr ⟨hex, hrest⟩

theorem endsAtFailure_forEach {α : Type} (body : α → σ → Outcome σ)
    (hbody : ∀ x s, EndsAtFailure (body x s)) (xs : List α) (s : σ) :
    EndsAtFailure (forEach body xs s) := by
  induction xs generalizing s with
  | nil => exact Or.inl ⟨rfl, by simp⟩
  | cons x xs ih =>
    rw [forEach_cons]
    exact endsAtFailure_andThen _ _ (hbody x s) ih

theorem endsAtFailure_checkDetailsBody (bt : ServicesManager σ) (repo : Repo) (pack : Package)
    (s : σ) : EndsAtFailure (checkDetailsBody bt repo pack s) := by
  obtain ⟨re, cb, pe, ke, hs | hs | ⟨ce, hs⟩ | hs | hs⟩ := checkDetailsBody_shape bt repo pack s
  · exact Or.inl ⟨hs.2, by
      simp [hs.1, repoQueryEvent, packageQueryEvent, Event.creationFailed]⟩
  · cases ke with
    | none => exact Or.inl ⟨hs.2, by
        simp [hs.1, repoQueryEvent, packageQueryEvent, packageCreateEvent, Event.creationFailed]⟩
    | some e =>
      refine Or.inr ⟨hs.2, [repoQueryEvent repo true re, packageQueryEvent repo pack false pe],
        packageCreateEvent repo pack (some e), by simp [hs.1], rfl, ?_⟩
      simp [repoQueryEvent, packageQueryEvent, Event.creationFailed]
  · refine Or.inr ⟨hs.2, [repoQueryEvent repo false re], repoCreateEvent repo cb (some ce),
      by simp [hs.1], rfl, ?_⟩
    simp [repoQueryEvent, Event.creationFailed]
  · exact Or.inl ⟨hs.2, by
      simp [hs.1, repoQueryEvent, repoCreateEvent, packageQueryEvent, Event.creationFailed]⟩
  · cases ke with
    | none => exact Or.inl ⟨hs.2, by
        simp [hs.1, repoQueryEvent, repoCreateEvent, packageQueryEvent, packageCreateEvent,
          Event.creationFailed]⟩
    | some e =>
      refine Or.inr ⟨hs.2, [repoQueryEvent repo false re, repoCreateEvent repo cb none,
        packageQueryEvent repo pack false pe],
        packageCreateEvent repo pack (some e), by simp [hs.1], rfl, ?_⟩
      simp [repoQueryEvent, repoCreateEvent, packageQueryEvent, Event.creationFailed]

theorem endsAtFailure_checkDetails (bt : ServicesManager σ) (config : BintrayConfig) (s : σ) :
    EndsAtFailure (checkDetails bt config s) := by
  unfold checkDetails
  rw [forEach_nested]
  exact endsAtFailure_forEach (fun rp : Repo × Package => checkDetailsBody bt rp.1 rp.2)
    (fun rp s1 => endsAtFailure_checkDetailsBody bt rp.1 rp.2 s1) _ s

theorem endsAtFailure_cleanup (bt : ServicesManager σ) (config : BintrayConfig) (s : σ) :
    EndsAtFailure (cleanup bt config s) := by
  unfold cleanup
  rw [forEach_nested]
  refine endsAtFailure_forEach _ (fun rp s1 => ?_) _ s
  obtain ⟨hex, ⟨e, ht⟩ | ⟨e, ht⟩⟩ := cleanupBody_shape bt rp.1 rp.2 s1 <;>
  exact Or.inl ⟨hex, by simp [ht, Event.creationFailed]⟩

theorem endsAtFailure_main (bt : ServicesManager σ) (passphrase : String)
    (config : BintrayConfig) (s : σ) : EndsAtFailure (main bt passphrase config s) := by
  unfold main
  refine endsAtFailure_andThen _ _ ?_ (fun s1 => ?_)
  · split
    · exact endsAtFailure_andThen _ _ (endsAtFailure_cleanup bt config s)
        (endsAtFailure_checkDetails bt config)
    · exact Or.inl ⟨rfl, by simp⟩
  · unfold mainLoop
    rw [forEach_nested]
    refine endsAtFailure_forEach _ (fun rp s2 => ?_) _ s1
    obtain ⟨hex, hc⟩ := mainBody_calls bt passphrase rp.1 rp.2 s2
    refine Or.inl ⟨hex, fun ev hev => ?_⟩
    have hm : ev.call ∈ uploadCalls passphrase rp.1 rp.2 := by
      rw [← hc]
      exact List.mem_map_of_mem _ hev
    cases ev <;> simp [uploadCalls, Event.call] at hm <;> rfl

theorem last_of_endsAtFailure (o : Outcome σ) (h : EndsAtFailure o) (pre post : List Event)
    (ev : Event) (hsplit : o.trace = pre ++ ev :: post) (hfail : ev.creationFailed = true) :
    post = [] ∧ o.exit = some 1 := by
  rcases h with ⟨_, hall⟩ | ⟨hex, pre1, ev1, htr, _, hpre⟩
  · have := hall ev (by rw [hsplit]; simp)
    rw [hfail] at this
    exact absurd this (by decide)
  · refine ⟨?_, hex⟩
    rcases List.eq_nil_or_concat post with hp | ⟨post1, lst, hp⟩
    · exact hp
    · exfalso
      rw [hsplit, hp] at htr
      have h2 : (pre ++ ev :: post1) ++ [lst] = pre1 ++ [ev1] := by simpa using htr
      have h3 := (List.append_inj' h2 rfl).1
      have := hpre ev (by rw [← h3]; simp)
      rw [hfail] at this
      exact absurd this (by decide)
/-- C4 as stated fails: the repository exists when the first package is
handled, so that package is created; when the second package is handled the
repository query answers false and `CreateReposIfNeeded` fails. The run ends
there, yet `CreatePackage` was called for a package under that repository. -/
theorem createPackage_precedes_failed_createRepo :
    (checkDetails flakyRemote demoConfig 0).trace
        = [repoQueryEvent (demoRepo "r1" []) true none,
            packageQueryEvent (demoRepo "r1" []) (demoPackage "p1" true) false none,
            packageCreateEvent (demoRepo "r1" []) (demoPackage "p1" true) none,
            repoQueryEvent (demoRepo "r1" []) false none,
            repoCreateEvent (demoRepo "r1" []) false (some "503")] ∧
      (checkDetails flakyRemote demoConfig 0).exit = some 1 ∧
      (repoCreateEvent (demoRepo "r1" []) false (some "503")).creationFailed = true ∧
      packageCreateEvent (demoRepo "r1" []) (demoPackage "p1" true) none
        ∈ (checkDetails flakyRemote demoConfig 0).trace :=
  ⟨by decide, by decide, by decide, by decide⟩

/-- C4, amended: a `CreateReposIfNeeded` or `CreatePackage` call that returns an
error is the last remote call of `checkDetails` and of the whole run of `main`,
and the run ends with exit status 1; so when `CreateReposIfNeeded` fails in the
iteration of a package, `CreatePackage` is called neither for that package nor
for any later one and no later repository or package is processed. A run ends
early in no other way. -/
theorem creation_failure_ends_run (bt : ServicesManager σ) (passphrase : String)
    (config : BintrayConfig) (s : σ) (ev : Event) (hfail : ev.creationFailed = true) :
    (∀ pre post, (checkDetails bt config s).trace = pre ++ ev :: post →
        post = [] ∧ (checkDetails bt config s).exit = some 1) ∧
      (∀ pre post, (main bt passphrase config s).trace = pre ++ ev :: post →
        post = [] ∧ (main bt passphrase config s).exit = some 1) ∧
      EndsAtFailure (checkDetails bt config s) ∧
      EndsAtFailure (main bt passphrase config s) :=
  ⟨fun pre post hsplit =>
      last_of_endsAtFailure _ (endsAtFailure_checkDetails bt config s) pre post ev hsplit hfail,
    fun pre post hsplit =>
      last_of_endsAtFailure _ (endsAtFailure_main bt passphrase config s) pre post ev hsplit
        hfail,
    endsAtFailure_checkDetails bt config s, endsAtFailure_main bt passphrase config s⟩

/-- An instance of the amended C4: every creation is refused, so the run ends at
the first `CreateReposIfNeeded` call, in `checkDetails` and in `main`. -/
theorem creation_failure_ends_run_witness :
    (repoCreateEvent (demoRepo "r1" []) false (some "denied")).creationFailed = true ∧
      (checkDetails refusingRemote demoConfig ()).trace
        = [repoQueryEvent (demoRepo "r1" []) false (some "timeout")] ++
            repoCreateEvent (demoRepo "r1" []) false (some "denied") :: [] ∧
      (([] : List Event) = [] ∧ (checkDetails refusingRemote demoConfig ()).exit = some 1) ∧
      (main refusingRemote "secret" demoConfig ()).trace
        = [Event.DeletePackage "acme/r1/p1" none, Event.ExecDeleteRepoRest ⟨"acme", "r1"⟩ none,
            Event.DeletePackage "acme/r1/p2" none, Event.ExecDeleteRepoRest ⟨"acme", "r1"⟩ none,
            repoQueryEvent (demoRepo "r1" []) false (some "timeout")] ++
            repoCreateEvent (demoRepo "r1" []) false (some "denied") :: [] ∧
      (([] : List Event) = [] ∧ (main refusingRemote "secret" demoConfig ()).exit = some 1) :=
  have h1 : (checkDetails refusingRemote demoConfig ()).trace
      = [repoQueryEvent (demoRepo "r1" []) false (some "timeout")] ++
          repoCreateEvent (demoRepo "r1" []) false (some "denied") :: [] := by decide
  have h2 : (main refusingRemote "secret" demoConfig ()).trace
      = [Event.DeletePackage "acme/r1/p1" none, Event.ExecDeleteRepoRest ⟨"acme", "r1"⟩ none,
          Event.DeletePackage "acme/r1/p2" none, Event.ExecDeleteRepoRest ⟨"acme", "r1"⟩ none,
          repoQueryEvent (demoRepo "r1" []) false (some "timeout")] ++
          repoCreateEvent (demoRepo "r1" []) false (some "denied") :: [] := by decide
  ⟨rfl, h1,
    (creation_failure_ends_run refusingRemote "secret" demoConfig ()
      (repoCreateEvent (demoRepo "r1" []) false (some "denied")) rfl).1 _ _ h1, h2,
    (creation_failure_ends_run refusingRemote "secret" demoConfig ()
      (repoCreateEvent (demoRepo "r1" []) false (some "denied")) rfl).2.1 _ _ h2⟩

theorem mapTrace_andThen (f : Event → Event) (o : Outcome σ) (k : σ → Outcome σ) :
    (o.andThen k).mapTrace f = (o.mapTrace f).andThen fun s => (k s).mapTrace f := by
  cases h : o.exit with
  | some c =>
    rw [andThen_of_exit_some o k c h, andThen_of_exit_some (o.mapTrace f) _ c h]
  | none =>
    rw [andThen_of_exit_none o k h, andThen_of_exit_none (o.mapTrace f) _ h]
    simp [Outcome.mapTrace]

theorem forEach_mapTrace {α : Type} (f : Event → Event) (body body1 : α → σ → Outcome σ)
    (hbody : ∀ x s, body1 x s = (body x s).mapTrace f) (xs : List α) (s : σ) :
    forEach body1 xs s = (forEach body xs s).mapTrace f := by
  induction xs generalizing s with
  | nil => rfl
  | cons x xs ih =>
    rw [forEach_cons, forEach_cons, mapTrace_andThen, hbody]
    congr 1
    funext s1
    exact ih s1

theorem checkDetailsBody_ignoreCheckErrors (bt : ServicesManager σ) (repo : Repo)
    (pack : Package) (s : σ) :
    checkDetailsBody (ignoreCheckErrors bt) repo pack s
      = (checkDetailsBody bt repo pack s).mapTrace Event.dropCheckError := by
  have hrepo : checkDetailsRepository (ignoreCheckErrors bt) repo s
      = (checkDetailsRepository bt repo s).mapTrace Event.dropCheckError := by
    cases hq : (bt.IsRepoExists (repoPath repo) s).1.1 with
    | true =>
      rw [checkDetailsRepository_of_true bt repo s hq,
        checkDetailsRepository_of_true (ignoreCheckErrors bt) repo s hq]
      rfl
    | false =>
      rw [checkDetailsRepository_of_false bt repo s hq,
        checkDetailsRepository_of_false (ignoreCheckErrors bt) repo s hq]
      rfl
  have hpack : ∀ s1, checkDetailsPackage (ignoreCheckErrors bt) repo pack s1
      = (checkDetailsPackage bt repo pack s1).mapTrace Event.dropCheckError := by
    intro s1
    cases hq : (bt.IsPackageExists (pkgString repo pack) s1).1.1 with
    | true =>
      rw [checkDetailsPackage_of_true bt repo pack s1 hq,
        checkDetailsPackage_of_true (ignoreCheckErrors bt) repo pack s1 hq]
      rfl
    | false =>
      rw [checkDetailsPackage_of_false bt repo pack s1 hq,
        checkDetailsPackage_of_false (ignoreCheckErrors bt) repo pack s1 hq]
      rfl
  unfold checkDetailsBody
  rw [mapTrace_andThen, hrepo]
  congr 1
  funext s1
  exact hpack s1

theorem checkDetailsBody_of_present (bt : ServicesManager σ) (repo : Repo) (pack : Package)
    (s : σ) (h : ∀ ev ∈ (checkDetailsBody bt repo pack s).trace, ev.isAbsentAnswer = false) :
    (checkDetailsBody bt repo pack s).exit = none ∧
      (checkDetailsBody bt repo pack s).trace.map Event.call
        = [Call.IsRepoExists (repoPath repo), Call.IsPackageExists (pkgString repo pack)] := by
  obtain ⟨re, cb, pe, ke, hs | hs | ⟨ce, hs⟩ | hs | hs⟩ := checkDetailsBody_shape bt repo pack s
  · exact ⟨hs.2, by simp [hs.1, repoQueryEvent, packageQueryEvent, Event.call]⟩
  all_goals
    exfalso
    rw [hs.1] at h
    simp [repoQueryEvent, repoCreateEvent, packageQueryEvent, packageCreateEvent,
      Event.isAbsentAnswer] at h

theorem forEach_checkDetailsBody_of_present (bt : ServicesManager σ)
    (xs : List (Repo × Package)) (s : σ)
    (h : ∀ ev ∈ (forEach (fun rp : Repo × Package => checkDetailsBody bt rp.1 rp.2) xs s).trace,
      ev.isAbsentAnswer = false) :
    (forEach (fun rp : Repo × Package => checkDetailsBody bt rp.1 rp.2) xs s).exit = none ∧
      (forEach (fun rp : Repo × Package => checkDetailsBody bt rp.1 rp.2) xs s).trace.map
          Event.call
        = xs.flatMap fun rp =>
            [Call.IsRepoExists (repoPath rp.1), Call.IsPackageExists (pkgString rp.1 rp.2)] := by
  induction xs generalizing s with
  | nil => simp
  | cons x xs ih =>
    rw [forEach_cons] at h ⊢
    have hb := checkDetailsBody_of_present bt x.1 x.2 s (fun ev hev => h ev (by
      rw [andThen_trace]
      exact List.mem_append_left _ hev))
    rw [andThen_of_exit_none _ _ hb.1] at h ⊢
    have hrest := ih (checkDetailsBody bt x.1 x.2 s).state
      (fun ev hev => h ev (List.mem_append_right _ hev))
    refine ⟨hrest.1, ?_⟩
    simp only [List.map_append, hb.2, hrest.2, List.flatMap_cons]

/-- C8: if every `IsRepoExists` and every `IsPackageExists` query that
`checkDetails` issues answers true, the pass issues no `CreateReposIfNeeded`
and no `CreatePackage` call, its calls are only the two queries of each package
in manifest order, and it runs to the end without ending the process. -/
theorem checkDetails_noop_when_provisioned (bt : ServicesManager σ) (config : BintrayConfig)
    (s : σ)
    (hr : ∀ p ok e, Event.IsRepoExists p ok e ∈ (checkDetails bt config s).trace → ok = true)
    (hp : ∀ p ok e, Event.IsPackageExists p ok e ∈ (checkDetails bt config s).trace → ok = true) :
    (checkDetails bt config s).exit = none ∧
      (∀ ev ∈ (checkDetails bt config s).trace,
        ev.isRepoCreation = false ∧ ev.isPackageCreation = false) ∧
      (checkDetails bt config s).trace.map Event.call
        = config.Repos.flatMap fun repo => repo.Packages.flatMap fun pack =>
            [Call.IsRepoExists (repoPath repo), Call.IsPackageExists (pkgString repo pack)] := by
  have hall : ∀ ev ∈ (checkDetails bt config s).trace, ev.isAbsentAnswer = false := by
    intro ev hev
    cases ev with
    | IsRepoExists p ok e => cases hr p ok e hev; rfl
    | IsPackageExists p ok e => cases hp p ok e hev; rfl
    | _ => rfl
  unfold checkDetails at hall ⊢
  rw [forEach_nested] at hall ⊢
  obtain ⟨hex, hcalls⟩ := forEach_checkDetailsBody_of_present bt _ s hall
  rw [manifestPairs_flatMap (fun repo pack =>
    [Call.IsRepoExists (repoPath repo), Call.IsPackageExists (pkgString repo pack)])] at hcalls
  refine ⟨hex, fun ev hev => ?_, hcalls⟩
  have hm := List.mem_map_of_mem Event.call hev
  rw [hcalls] at hm
  simp only [List.mem_flatMap, List.mem_cons, List.mem_singleton, List.not_mem_nil,
    or_false] at hm
  obtain ⟨r, _, pk, _, h | h⟩ := hm <;> cases ev <;> simp [Event.call] at h <;>
    exact ⟨rfl, rfl⟩

/-- An instance of C8: the demo manifest on a remote where everything exists. -/
theorem checkDetails_noop_when_provisioned_witness :
    (∀ p ok e, Event.IsRepoExists p ok e ∈ (checkDetails provisionedRemote demoConfig ()).trace →
        ok = true) ∧
      (∀ p ok e, Event.IsPackageExists p ok e
        ∈ (checkDetails provisionedRemote demoConfig ()).trace → ok = true) ∧
      ((checkDetails provisionedRemote demoConfig ()).exit = none ∧
        (∀ ev ∈ (checkDetails provisionedRemote demoConfig ()).trace,
          ev.isRepoCreation = false ∧ ev.isPackageCreation = false) ∧
        (checkDetails provisionedRemote demoConfig ()).trace.map Event.call
          = demoConfig.Repos.flatMap fun repo => repo.Packages.flatMap fun pack =>
              [Call.IsRepoExists (repoPath repo), Call.IsPackageExists (pkgString repo pack)]) :=
  have ht : (checkDetails provisionedRemote demoConfig ()).trace
      = [Event.IsRepoExists ⟨"acme", "r1"⟩ true none,
          Event.IsPackageExists "acme/r1/p1" true none,
          Event.IsRepoExists ⟨"acme", "r1"⟩ true none,
          Event.IsPackageExists "acme/r1/p2" true none] := by decide
  have h1 : ∀ p ok e, Event.IsRepoExists p ok e
      ∈ (checkDetails provisionedRemote demoConfig ()).trace → ok = true := by
    intro p ok e hm
    rw [ht] at hm
    simp at hm
    exact hm.2.1
  have h2 : ∀ p ok e, Event.IsPackageExists p ok e
      ∈ (checkDetails provisionedRemote demoConfig ()).trace → ok = true := by
    intro p ok e hm
    rw [ht] at hm
    simp at hm
    rcases hm with hm | hm <;> exact hm.2.1
  ⟨h1, h2, checkDetails_noop_when_provisioned provisionedRemote demoConfig () h1 h2⟩
theorem cleanup_exit (bt : ServicesManager σ) (config : BintrayConfig) (s : σ) :
    (cleanup bt config s).exit = none := by
  unfold cleanup
  rw [forEach_nested]
  exact (forEach_filterMap (fun rp : Repo × Package => cleanupBody bt rp.1 rp.2)
    (fun _ => (none : Option Unit)) (fun _ => [])
    (fun rp s1 => ⟨(cleanupBody_shape bt rp.1 rp.2 s1).1, by simp⟩) _ s).1

theorem mainLoop_calls (bt : ServicesManager σ) (passphrase : String) (config : BintrayConfig)
    (s : σ) :
    (mainLoop bt passphrase config s).exit = none ∧
      (mainLoop bt passphrase config s).trace.map Event.call
        = config.Repos.flatMap fun repo =>
            repo.Packages.flatMap fun pack => uploadCalls passphrase repo pack := by
  unfold mainLoop
  rw [forEach_nested, ← manifestPairs_flatMap (fun repo pack => uploadCalls passphrase repo pack)]
  have h := forEach_filterMap (fun rp : Repo × Package => mainBody bt passphrase rp.1 rp.2)
    (fun ev => some ev.call) (fun rp => uploadCalls passphrase rp.1 rp.2)
    (fun rp s1 => ⟨(mainBody_calls bt passphrase rp.1 rp.2 s1).1, by
      show List.filterMap (fun ev => some ev.call) (mainBody bt passphrase rp.1 rp.2 s1).trace
        = uploadCalls passphrase rp.1 rp.2
      rw [← (mainBody_calls bt passphrase rp.1 rp.2 s1).2]
      exact congrFun (List.filterMap_eq_map Event.call) _⟩) (manifestPairs config.Repos) s
  refine ⟨h.1, ?_⟩
  rw [← h.2]
  exact (congrFun (List.filterMap_eq_map Event.call) _).symm

theorem isUploadStep_of_mainLoop (bt : ServicesManager σ) (passphrase : String)
    (config : BintrayConfig) (s : σ) :
    ∀ ev ∈ (mainLoop bt passphrase config s).trace, ev.isUploadStep = true := by
  intro ev hev
  have hm := List.mem_map_of_mem Event.call hev
  rw [(mainLoop_calls bt passphrase config s).2] at hm
  simp only [List.mem_flatMap] at hm
  obtain ⟨r, _, pk, _, h⟩ := hm
  cases ev <;> simp [uploadCalls, Event.call] at h <;> rfl

theorem isDeletion_of_cleanup (bt : ServicesManager σ) (config : BintrayConfig) (s : σ) :
    ∀ ev ∈ (cleanup bt config s).trace, ev.isDeletion = true := by
  unfold cleanup
  rw [forEach_nested]
  refine forEach_trace_local (fun rp : Repo × Package => cleanupBody bt rp.1 rp.2)
    (fun t => ∀ ev ∈ t, ev.isDeletion = true) (by simp)
    (fun t1 t2 h1 h2 ev hev => ?_) _ (fun rp _ s1 => ?_) s
  · rcases List.mem_append.1 hev with h | h
    · exact h1 ev h
    · exact h2 ev h
  · obtain ⟨_, ⟨e, ht⟩ | ⟨e, ht⟩⟩ := cleanupBody_shape bt rp.1 rp.2 s1 <;>
    simp [ht, Event.isDeletion]

theorem isCheckOrCreate_of_checkDetails (bt : ServicesManager σ) (config : BintrayConfig)
    (s : σ) : ∀ ev ∈ (checkDetails bt config s).trace, ev.isCheckOrCreate = true := by
  unfold checkDetails
  rw [forEach_nested]
  refine forEach_trace_local (fun rp : Repo × Package => checkDetailsBody bt rp.1 rp.2)
    (fun t => ∀ ev ∈ t, ev.isCheckOrCreate = true) (by simp)
    (fun t1 t2 h1 h2 ev hev => ?_) _ (fun rp _ s1 => ?_) s
  · rcases List.mem_append.1 hev with h | h
    · exact h1 ev h
    · exact h2 ev h
  · obtain ⟨re, cb, pe, ke, hs | hs | ⟨ce, hs⟩ | hs | hs⟩ :=
      checkDetailsBody_shape bt rp.1 rp.2 s1 <;>
    simp [hs.1, Event.isCheckOrCreate, repoQueryEvent, repoCreateEvent, packageQueryEvent,
      packageCreateEvent]

/-- C9: the cleanup flag gates the reconciliation pass. With `Cleanup` false a
run of `main` issues only upload, sign, publish, metadata and show calls: for
each package in manifest order the upload, the signing, the publication when
`Upload.Publish` is true, the metadata calculation and the show call; it issues
no existence query, no creation and no deletion, and runs to the end. With
`Cleanup` true the trace is the calls of `cleanup` (deletions only), followed
by the calls of `checkDetails` (queries and creations only), followed, when
`checkDetails` has not ended the process, by the calls of the upload loop. -/
theorem main_gated_on_cleanup (bt : ServicesManager σ) (passphrase : String)
    (config : BintrayConfig) (s : σ) :
    (config.Cleanup = false →
        (main bt passphrase config s).exit = none ∧
        (main bt passphrase config s).trace.map Event.call
          = (config.Repos.flatMap fun repo =>
              repo.Packages.flatMap fun pack => uploadCalls passphrase repo pack) ∧
        ∀ ev ∈ (main bt passphrase config s).trace,
          ev.isUploadStep = true ∧ ev.isCheckOrCreate = false ∧ ev.isDeletion = false) ∧
      (config.Cleanup = true →
        (main bt passphrase config s).trace
          = (cleanup bt config s).trace ++
            (checkDetails bt config (cleanup bt config s).state).trace ++
            (if (checkDetails bt config (cleanup bt config s).state).exit = none then
              (mainLoop bt passphrase config
                (checkDetails bt config (cleanup bt config s).state).state).trace
             else [])) ∧
      (∀ ev ∈ (cleanup bt config s).trace, ev.isDeletion = true) ∧
      (∀ s1, ∀ ev ∈ (checkDetails bt config s1).trace, ev.isCheckOrCreate = true) ∧
      (∀ s1, ∀ ev ∈ (mainLoop bt passphrase config s1).trace, ev.isUploadStep = true) := by
  refine ⟨fun hc => ?_, fun hc => ?_, isDeletion_of_cleanup bt config s,
    fun s1 => isCheckOrCreate_of_checkDetails bt config s1,
    fun s1 => isUploadStep_of_mainLoop bt passphrase config s1⟩
  · have hmain : main bt passphrase config s = mainLoop bt passphrase config s := by
      unfold main
      rw [hc]
      simp [andThen_pure_left]
    rw [hmain]
    refine ⟨(mainLoop_calls bt passphrase config s).1,
      (mainLoop_calls bt passphrase config s).2, fun ev hev => ?_⟩
    have := isUploadStep_of_mainLoop bt passphrase config s ev hev
    cases ev <;> simp [Event.isUploadStep] at this <;> exact ⟨rfl, rfl, rfl⟩
  · unfold main
    rw [hc, if_pos rfl, andThen_of_exit_none _ _ (cleanup_exit bt config s), andThen_trace]

/-- An instance of C9: the demo manifest with the cleanup flag off and with the
cleanup flag on. -/
theorem main_gated_on_cleanup_witness :
    uploadOnlyConfig.Cleanup = false ∧
      (main pickyRemote "secret" uploadOnlyConfig ()).exit = none ∧
      (main pickyRemote "secret" uploadOnlyConfig ()).trace.map Event.call
        = [Call.UploadFiles ⟨"acme/r1/p1/1.0", "1.0", true, "files-p1"⟩,
            Call.GpgSignVersion "acme/r1/p1/1.0" "secret",
            Call.PublishVersion "acme/r1/p1/1.0",
            Call.CalcMetadata "acme/r1/p1/1.0",
            Call.ShowPackage "acme/r1/p1",
            Call.UploadFiles ⟨"acme/r1/p2/1.0", "1.0", false, "files-p2"⟩,
            Call.GpgSignVersion "acme/r1/p2/1.0" "secret",
            Call.CalcMetadata "acme/r1/p2/1.0",
            Call.ShowPackage "acme/r1/p2"] ∧
      demoConfig.Cleanup = true ∧
      (main pickyRemote "secret" demoConfig ()).trace
        = (cleanup pickyRemote demoConfig ()).trace ++
          (checkDetails pickyRemote demoConfig (cleanup pickyRemote demoConfig ()).state).trace ++
          (if (checkDetails pickyRemote demoConfig
                (cleanup pickyRemote demoConfig ()).state).exit = none then
            (mainLoop pickyRemote "secret" demoConfig
              (checkDetails pickyRemote demoConfig
                (cleanup pickyRemote demoConfig ()).state).state).trace
           else []) :=
  ⟨rfl, ((main_gated_on_cleanup pickyRemote "secret" uploadOnlyConfig ()).1 rfl).1,
    ((main_gated_on_cleanup pickyRemote "secret" uploadOnlyConfig ()).1 rfl).2.1, rfl,
    (main_gated_on_cleanup pickyRemote "secret" demoConfig ()).2.1 rfl⟩

theorem cleanupBody_trace (bt : ServicesManager σ) (repo : Repo) (pack : Package) (s : σ) :
    (cleanupBody bt repo pack s).trace
      = Event.DeletePackage (pkgString repo pack) (bt.DeletePackage (pkgString repo pack) s).1
        :: (if (bt.DeletePackage (pkgString repo pack) s).1 = none then
              [Event.ExecDeleteRepoRest (repoPath repo)
                (bt.ExecDeleteRepoRest (repoPath repo)
                  (bt.DeletePackage (pkgString repo pack) s).2).1]
            else []) := by
  unfold cleanupBody
  simp only [deletePackage, deleteRepo, errorsWrap]
  cases hd : (bt.DeletePackage (pkgString repo pack) s).1 with
  | some e => simp
  | none => simp [andThen_of_exit_none]

theorem cleanupBody_facts (bt : ServicesManager σ) (repo : Repo) (pack : Package) (s : σ) :
    (cleanupBody bt repo pack s).exit = none ∧
      packageDeletions (cleanupBody bt repo pack s).trace = [pkgString repo pack] ∧
      (cleanupBody bt repo pack s).trace.countP Event.isRepoDeletion
        = (cleanupBody bt repo pack s).trace.countP Event.isPackageDeleted ∧
      ∀ p e, Event.ExecDeleteRepoRest p e ∈ (cleanupBody bt repo pack s).trace →
        p = repoPath repo := by
  obtain ⟨hex, ⟨e, ht⟩ | ⟨e, ht⟩⟩ := cleanupBody_shape bt repo pack s <;>
  simp [hex, ht, packageDeletions, List.countP_cons, Event.isRepoDeletion,
    Event.isPackageDeleted]

theorem andThen_pure_right (o : Outcome σ) :
    (o.andThen fun s => ⟨[], s, none⟩) = o := by
  cases h : o.exit with
  | some c => rw [andThen_of_exit_some _ _ c h]
  | none =>
    rw [andThen_of_exit_none _ _ h]
    cases o
    simp_all

theorem forEach_singleton {α : Type} (body : α → σ → Outcome σ) (x : α) (s : σ) :
    forEach body [x] s = body x s := by
  rw [forEach_cons]
  exact andThen_pure_right _

/-- The pass over a manifest cut after `ps ++ [pack]` is the pass over the
manifest cut after `ps`, followed by the iteration of `pack`. -/
theorem nested_upTo_snoc (body : Repo → Package → σ → Outcome σ)
    (hb : ∀ repo ps pack s, body { repo with Packages := ps } pack s = body repo pack s)
    (pre : List Repo) (repo : Repo) (ps : List Package) (pack : Package) (s : σ) :
    forEach (fun r => forEach (fun p => body r p) r.Packages)
        (pre ++ [{ repo with Packages := ps ++ [pack] }]) s
      = (forEach (fun r => forEach (fun p => body r p) r.Packages)
          (pre ++ [{ repo with Packages := ps }]) s).andThen (body repo pack) := by
  have e1 : ∀ qs, (fun p => body { repo with Packages := qs } p) = body repo :=
    fun qs => funext fun p => funext fun s1 => hb repo qs p s1
  rw [forEach_append, forEach_append, andThen_assoc]
  congr 1
  funext s1
  rw [forEach_singleton, forEach_singleton]
  simp only [e1]
  rw [forEach_append]
  congr 1
  funext s2
  exact forEach_singleton _ _ _

/-- The pass over the whole manifest extends the pass over the manifest cut
after the package `pack`. -/
theorem nested_cut (body : Repo → Package → σ → Outcome σ)
    (hb : ∀ repo ps pack s, body { repo with Packages := ps } pack s = body repo pack s)
    (pre post : List Repo) (repo : Repo) (ppre ppost : List Package) (pack : Package)
    (hpacks : repo.Packages = ppre ++ pack :: ppost) (s : σ) :
    ∃ K, forEach (fun r => forEach (fun p => body r p) r.Packages) (pre ++ repo :: post) s
      = (forEach (fun r => forEach (fun p => body r p) r.Packages)
          (pre ++ [{ repo with Packages := ppre ++ [pack] }]) s).andThen K := by
  have e1 : ∀ qs, (fun p => body { repo with Packages := qs } p) = body repo :=
    fun qs => funext fun p => funext fun s1 => hb repo qs p s1
  refine ⟨fun s1 => (forEach (body repo) ppost s1).andThen
    (forEach (fun r => forEach (fun p => body r p) r.Packages) post), ?_⟩
  rw [forEach_append, forEach_append, andThen_assoc]
  congr 1
  funext s1
  rw [forEach_singleton, forEach_cons, hpacks]
  simp only [e1]
  have : ppre ++ pack :: ppost = (ppre ++ [pack]) ++ ppost := by simp
  rw [this, forEach_append, andThen_assoc]

theorem nested_upTo_nil (body : Repo → Package → σ → Outcome σ)
    (pre : List Repo) (repo : Repo) (s : σ) :
    forEach (fun r => forEach (fun p => body r p) r.Packages)
        (pre ++ [{ repo with Packages := [] }]) s
      = forEach (fun r => forEach (fun p => body r p) r.Packages) pre s := by
  rw [forEach_append]
  have : (forEach (fun r => forEach (fun p => body r p) r.Packages)
      [{ repo with Packages := [] }]) = fun s1 => (⟨[], s1, none⟩ : Outcome σ) := by
    funext s1
    rw [forEach_singleton]
    rfl
  rw [this, andThen_pure_right]

theorem checkDetails_upTo_snoc (bt : ServicesManager σ) (config : BintrayConfig)
    (pre : List Repo) (repo : Repo) (ps : List Package) (pack : Package) (s : σ) :
    checkDetails bt (manifestUpTo config pre repo (ps ++ [pack])) s
      = (checkDetails bt (manifestUpTo config pre repo ps) s).andThen
          (checkDetailsBody bt repo pack) :=
  nested_upTo_snoc (checkDetailsBody bt) (fun _ _ _ _ => rfl) pre repo ps pack s

theorem checkDetails_cut (bt : ServicesManager σ) (config : BintrayConfig)
    (pre post : List Repo) (repo : Repo) (ppre ppost : List Package) (pack : Package)
    (hrepos : config.Repos = pre ++ repo :: post)
    (hpacks : repo.Packages = ppre ++ pack :: ppost) (s : σ) :
    ∃ K, checkDetails bt config s
      = (checkDetails bt (manifestUpTo config pre repo (ppre ++ [pack])) s).andThen K := by
  obtain ⟨K, hK⟩ := nested_cut (checkDetailsBody bt) (fun _ _ _ _ => rfl) pre post repo ppre
    ppost pack hpacks s
  refine ⟨K, ?_⟩
  unfold checkDetails
  rw [hrepos]
  exact hK

/-- The iteration of `pack` inside the pass: the pass cut after `pack` adds the
calls of the iteration to the pass cut before it, and the whole pass extends
the pass cut after `pack`. -/
theorem checkDetails_iteration (bt : ServicesManager σ) (config : BintrayConfig)
    (pre post : List Repo) (repo : Repo) (ppre ppost : List Package) (pack : Package)
    (hrepos : config.Repos = pre ++ repo :: post)
    (hpacks : repo.Packages = ppre ++ pack :: ppost) (s : σ)
    (hbefore : (checkDetails bt (manifestUpTo config pre repo ppre) s).exit = none) :
    (checkDetails bt (manifestUpTo config pre repo (ppre ++ [pack])) s).trace
        = (checkDetails bt (manifestUpTo config pre repo ppre) s).trace ++
          (checkDetailsBody bt repo pack
            (checkDetails bt (manifestUpTo config pre repo ppre) s).state).trace ∧
      ∃ T, (checkDetails bt config s).trace
        = (checkDetails bt (manifestUpTo config pre repo (ppre ++ [pack])) s).trace ++ T := by
  constructor
  · rw [checkDetails_upTo_snoc, andThen_of_exit_none _ _ hbefore]
  · obtain ⟨K, hK⟩ := checkDetails_cut bt config pre post repo ppre ppost pack hrepos hpacks s
    rw [hK, andThen_trace]
    exact ⟨_, rfl⟩

theorem checkDetailsPackage_no_repoCreation (bt : ServicesManager σ) (repo : Repo)
    (pack : Package) (s : σ) :
    (checkDetailsPackage bt repo pack s).trace.filter Event.isRepoCreation = [] := by
  obtain ⟨pe, ke, hs | hs⟩ := checkDetailsPackage_shape bt repo pack s <;>
  simp [hs, Event.isRepoCreation, packageQueryEvent, packageCreateEvent]

theorem checkDetailsBody_of_absent (bt : ServicesManager σ) (repo : Repo) (pack : Package)
    (s : σ) (h : (bt.IsRepoExists (repoPath repo) s).1.1 = false) :
    ∃ rest, (checkDetailsBody bt repo pack s).trace
        = repoQueryEvent repo false (bt.IsRepoExists (repoPath repo) s).1.2 ::
          repoCreateEvent repo (repoCreation bt repo s).1.1 (repoCreation bt repo s).1.2 ::
          rest ∧
      rest.filter Event.isRepoCreation = [] := by
  unfold checkDetailsBody
  rw [andThen_trace, checkDetailsRepository_of_false bt repo s h]
  split
  · exact ⟨_, rfl, checkDetailsPackage_no_repoCreation bt repo pack _⟩
  · exact ⟨[], rfl, rfl⟩

/-- C2, amended: take the iteration of `checkDetails` for the package `pack`
under the repository `repo` of the manifest, and suppose the pass reaches it
(the pass over everything before it has not ended the run) and that its
`IsRepoExists` query answers false. Then the calls of that iteration, which
follow the calls made before it in the trace of the pass, begin with the query
and one `CreateReposIfNeeded` call carrying the repository's (subject, name)
path, its configuration and its configuration file path, and contain no other
repository creation. Over the whole pass the creation calls for a path are as
many as the false answers for that path, and each creation call belongs to a
repository of the manifest that has a package: a repository without packages
is never created. -/
theorem createRepo_once_per_absent_answer (bt : ServicesManager σ) (config : BintrayConfig)
    (s : σ) (pre post : List Repo) (repo : Repo) (ppre ppost : List Package) (pack : Package)
    (hrepos : config.Repos = pre ++ repo :: post)
    (hpacks : repo.Packages = ppre ++ pack :: ppost)
    (hbefore : (checkDetails bt (manifestUpTo config pre repo ppre) s).exit = none)
    (habsent : (bt.IsRepoExists (repoPath repo)
      (checkDetails bt (manifestUpTo config pre repo ppre) s).state).1.1 = false) :
    (∃ rest T,
        (checkDetails bt (manifestUpTo config pre repo (ppre ++ [pack])) s).trace
          = (checkDetails bt (manifestUpTo config pre repo ppre) s).trace ++
            repoQueryEvent repo false
              (bt.IsRepoExists (repoPath repo)
                (checkDetails bt (manifestUpTo config pre repo ppre) s).state).1.2 ::
            repoCreateEvent repo
              (repoCreation bt repo
                (checkDetails bt (manifestUpTo config pre repo ppre) s).state).1.1
              (repoCreation bt repo
                (checkDetails bt (manifestUpTo config pre repo ppre) s).state).1.2 ::
            rest ∧
        rest.filter Event.isRepoCreation = [] ∧
        (checkDetails bt config s).trace
          = (checkDetails bt (manifestUpTo config pre repo (ppre ++ [pack])) s).trace ++ T) ∧
      (∀ p, (checkDetails bt config s).trace.countP (Event.isRepoCreationAt p)
        = (checkDetails bt config s).trace.countP (Event.isRepoAbsentAnswer p)) ∧
      (∀ p c f b e, Event.CreateReposIfNeeded p c f b e ∈ (checkDetails bt config s).trace →
        ∃ r ∈ config.Repos, r.Packages ≠ [] ∧ p = repoPath r ∧ c = r.Config ∧
          f = r.Config.RepoConfigFilePath) := by
  refine ⟨?_, ?_, ?_⟩
  · obtain ⟨hupto, T, hT⟩ := checkDetails_iteration bt config pre post repo ppre ppost pack
      hrepos hpacks s hbefore
    obtain ⟨rest, hbody, hrest⟩ := checkDetailsBody_of_absent bt repo pack _ habsent
    exact ⟨rest, T, by rw [hupto, hbody], hrest, hT⟩
  · unfold checkDetails
    rw [forEach_nested]
    refine forEach_trace_local (fun rp : Repo × Package => checkDetailsBody bt rp.1 rp.2)
      (fun t => ∀ p, t.countP (Event.isRepoCreationAt p) = t.countP (Event.isRepoAbsentAnswer p))
      (by simp) (fun t1 t2 h1 h2 p => by simp [h1 p, h2 p]) _ (fun rp _ s1 p => ?_) s
    obtain ⟨re, cb, pe, ke, hs | hs | ⟨ce, hs⟩ | hs | hs⟩ :=
      checkDetailsBody_shape bt rp.1 rp.2 s1 <;>
    simp [hs.1, List.countP_cons, Event.isRepoCreationAt, Event.isRepoAbsentAnswer,
      repoQueryEvent, repoCreateEvent, packageQueryEvent, packageCreateEvent]
  · unfold checkDetails
    rw [forEach_nested]
    refine forEach_trace_local (fun rp : Repo × Package => checkDetailsBody bt rp.1 rp.2)
      (fun t => ∀ p c f b e, Event.CreateReposIfNeeded p c f b e ∈ t →
        ∃ r ∈ config.Repos, r.Packages ≠ [] ∧ p = repoPath r ∧ c = r.Config ∧
          f = r.Config.RepoConfigFilePath)
      (by simp) (fun t1 t2 h1 h2 p c f b e hm => ?_) _ (fun rp hrp s1 p c f b e hm => ?_) s
    · rcases List.mem_append.1 hm with hm | hm
      · exact h1 p c f b e hm
      · exact h2 p c f b e hm
    · rw [mem_manifestPairs] at hrp
      have hne : rp.1.Packages ≠ [] := List.ne_nil_of_mem hrp.2
      refine ⟨rp.1, hrp.1, hne, ?_⟩
      obtain ⟨re, cb, pe, ke, hs | hs | ⟨ce, hs⟩ | hs | hs⟩ :=
        checkDetailsBody_shape bt rp.1 rp.2 s1 <;>
      · rw [hs.1] at hm
        simp [repoQueryEvent, repoCreateEvent, packageQueryEvent, packageCreateEvent] at hm
        try (obtain ⟨rfl, rfl, rfl, _⟩ := hm; exact ⟨rfl, rfl, rfl⟩)

/-- An instance of the amended C2: the second package of the demo manifest on
a remote where nothing exists; the pass reaches it and its repository query
answers false. -/
theorem createRepo_once_per_absent_answer_witness :
    demoConfig.Repos = [] ++ demoRepo "r1" [demoPackage "p1" true, demoPackage "p2" false]
        :: [demoRepo "r0" []] ∧
      (demoRepo "r1" [demoPackage "p1" true, demoPackage "p2" false]).Packages
        = [demoPackage "p1" true] ++ demoPackage "p2" false :: [] ∧
      (checkDetails freshRemote
        (manifestUpTo demoConfig [] (demoRepo "r1" [demoPackage "p1" true, demoPackage "p2" false])
          [demoPackage "p1" true]) ()).exit = none ∧
      (freshRemote.IsRepoExists
        (repoPath (demoRepo "r1" [demoPackage "p1" true, demoPackage "p2" false]))
        (checkDetails freshRemote
          (manifestUpTo demoConfig []
            (demoRepo "r1" [demoPackage "p1" true, demoPackage "p2" false])
            [demoPackage "p1" true]) ()).state).1.1 = false ∧
      (∃ rest T,
        (checkDetails freshRemote
          (manifestUpTo demoConfig []
            (demoRepo "r1" [demoPackage "p1" true, demoPackage "p2" false])
            ([demoPackage "p1" true] ++ [demoPackage "p2" false])) ()).trace
          = (checkDetails freshRemote
              (manifestUpTo demoConfig []
                (demoRepo "r1" [demoPackage "p1" true, demoPackage "p2" false])
                [demoPackage "p1" true]) ()).trace ++
            Event.IsRepoExists ⟨"acme", "r1"⟩ false none ::
            Event.CreateReposIfNeeded ⟨"acme", "r1"⟩ ⟨"r1.json", "cfg-r1"⟩ "r1.json" true none ::
            rest ∧
        rest.filter Event.isRepoCreation = [] ∧
        (checkDetails freshRemote demoConfig ()).trace
          = (checkDetails freshRemote
              (manifestUpTo demoConfig []
                (demoRepo "r1" [demoPackage "p1" true, demoPackage "p2" false])
                ([demoPackage "p1" true] ++ [demoPackage "p2" false])) ()).trace ++ T) :=
  ⟨rfl, rfl, rfl, rfl,
    (createRepo_once_per_absent_answer freshRemote demoConfig () []
      [demoRepo "r0" []] (demoRepo "r1" [demoPackage "p1" true, demoPackage "p2" false])
      [demoPackage "p1" true] [] (demoPackage "p2" false) rfl rfl rfl rfl).1⟩

theorem checkDetailsRepository_no_packageEvent (bt : ServicesManager σ) (repo : Repo) (s : σ) :
    (checkDetailsRepository bt repo s).trace.filter Event.isPackageEvent = [] := by
  cases hq : (bt.IsRepoExists (repoPath repo) s).1.1 with
  | true => rw [checkDetailsRepository_of_true bt repo s hq]; rfl
  | false => rw [checkDetailsRepository_of_false bt repo s hq]; rfl

theorem checkDetailsRepository_alive (bt : ServicesManager σ) (repo : Repo) (s : σ)
    (hreach : (bt.IsRepoExists (repoPath repo) s).1.1 = true ∨
      (repoCreation bt repo s).1.2 = none) :
    (checkDetailsRepository bt repo s).exit = none ∧
      (checkDetailsRepository bt repo s).state = stateAtPackageQuery bt repo s := by
  cases hq : (bt.IsRepoExists (repoPath repo) s).1.1 with
  | true =>
    rw [checkDetailsRepository_of_true bt repo s hq]
    simp [stateAtPackageQuery, hq]
  | false =>
    have hc : (repoCreation bt repo s).1.2 = none := by
      rcases hreach with h | h
      · rw [hq] at h; exact absurd h (by decide)
      · exact h
    rw [checkDetailsRepository_of_false bt repo s hq]
    unfold repoCreation at hc
    simp [stateAtPackageQuery, repoCreation, hq, hc]

theorem checkDetailsPackage_trace (bt : ServicesManager σ) (repo : Repo) (pack : Package)
    (s : σ) :
    (checkDetailsPackage bt repo pack s).trace
      = packageQueryEvent repo pack (bt.IsPackageExists (pkgString repo pack) s).1.1
          (bt.IsPackageExists (pkgString repo pack) s).1.2 ::
        (if (bt.IsPackageExists (pkgString repo pack) s).1.1 = false then
          [packageCreateEvent repo pack
            (bt.CreatePackage { pack.Config with Path := pkgString repo pack }
              (bt.IsPackageExists (pkgString repo pack) s).2).1]
         else []) := by
  cases hq : (bt.IsPackageExists (pkgString repo pack) s).1.1 with
  | true =>
    rw [checkDetailsPackage_of_true bt repo pack s hq]
    simp [packageQueryEvent]
  | false =>
    rw [checkDetailsPackage_of_false bt repo pack s hq]
    simp [packageQueryEvent, packageCreateEvent]

theorem checkDetailsBody_of_reached (bt : ServicesManager σ) (repo : Repo) (pack : Package)
    (s : σ)
    (hreach : (bt.IsRepoExists (repoPath repo) s).1.1 = true ∨
      (repoCreation bt repo s).1.2 = none) :
    ∃ head, (checkDetailsBody bt repo pack s).trace
        = head ++
          packageQueryEvent repo pack (packageAnswer bt repo pack s).1.1
            (packageAnswer bt repo pack s).1.2 ::
          (if (packageAnswer bt repo pack s).1.1 = false then
            [packageCreateEvent repo pack
              (bt.CreatePackage { pack.Config with Path := pkgString repo pack }
                (packageAnswer bt repo pack s).2).1]
           else []) ∧
      head.filter Event.isPackageEvent = [] := by
  obtain ⟨hex, hst⟩ := checkDetailsRepository_alive bt repo s hreach
  refine ⟨(checkDetailsRepository bt repo s).trace, ?_,
    checkDetailsRepository_no_packageEvent bt repo s⟩
  unfold checkDetailsBody
  rw [andThen_of_exit_none _ _ hex, hst, checkDetailsPackage_trace]
  rfl

/-- C6: take the iteration of `checkDetails` for the package `pack` under the
repository `repo` of the manifest, and suppose the pass reaches the package:
the pass over everything before the iteration has not ended the run, and the
repository part of the iteration has not either (the repository query answered
true, or the repository creation succeeded). Then the calls of that iteration,
which follow the calls made before it in the trace of the pass, end with the
`IsPackageExists` query for the string subject/name/package and, exactly when
that query answered false, one `CreatePackage` call right after it, with the
package's own configuration and the same path as the query; before the query
the iteration makes no call about packages, and when the answer is true it
makes no creation call. Over the whole pass the `CreatePackage` calls for a path
are as many as the false answers for it, and every `CreatePackage` call carries
the configuration of a package of the manifest. -/
theorem createPackage_iff_absent (bt : ServicesManager σ) (config : BintrayConfig) (s : σ)
    (pre post : List Repo) (repo : Repo) (ppre ppost : List Package) (pack : Package)
    (hrepos : config.Repos = pre ++ repo :: post)
    (hpacks : repo.Packages = ppre ++ pack :: ppost)
    (hbefore : (checkDetails bt (manifestUpTo config pre repo ppre) s).exit = none)
    (hreach : (bt.IsRepoExists (repoPath repo)
        (checkDetails bt (manifestUpTo config pre repo ppre) s).state).1.1 = true ∨
      (repoCreation bt repo
        (checkDetails bt (manifestUpTo config pre repo ppre) s).state).1.2 = none) :
    (∃ head T,
        (checkDetails bt (manifestUpTo config pre repo (ppre ++ [pack])) s).trace
          = (checkDetails bt (manifestUpTo config pre repo ppre) s).trace ++ head ++
            packageQueryEvent repo pack
              (packageAnswer bt repo pack
                (checkDetails bt (manifestUpTo config pre repo ppre) s).state).1.1
              (packageAnswer bt repo pack
                (checkDetails bt (manifestUpTo config pre repo ppre) s).state).1.2 ::
            (if (packageAnswer bt repo pack
                  (checkDetails bt (manifestUpTo config pre repo ppre) s).state).1.1 = false
             then
              [packageCreateEvent repo pack
                (bt.CreatePackage { pack.Config with Path := pkgString repo pack }
                  (packageAnswer bt repo pack
                    (checkDetails bt (manifestUpTo config pre repo ppre) s).state).2).1]
             else []) ∧
        head.filter Event.isPackageEvent = [] ∧
        (checkDetails bt config s).trace
          = (checkDetails bt (manifestUpTo config pre repo (ppre ++ [pack])) s).trace ++ T) ∧
      (∀ k, (checkDetails bt config s).trace.countP (Event.isPackageCreationAt k)
        = (checkDetails bt config s).trace.countP (Event.isPackageAbsentAnswer k)) ∧
      (∀ params e, Event.CreatePackage params e ∈ (checkDetails bt config s).trace →
        ∃ r ∈ config.Repos, ∃ pk ∈ r.Packages,
          params = { pk.Config with Path := pkgString r pk }) := by
  refine ⟨?_, ?_, ?_⟩
  · obtain ⟨hupto, T, hT⟩ := checkDetails_iteration bt config pre post repo ppre ppost pack
      hrepos hpacks s hbefore
    obtain ⟨head, hbody, hhead⟩ := checkDetailsBody_of_reached bt repo pack _ hreach
    exact ⟨head, T, by rw [hupto, hbody, List.append_assoc], hhead, hT⟩
  · unfold checkDetails
    rw [forEach_nested]
    refine forEach_trace_local (fun rp : Repo × Package => checkDetailsBody bt rp.1 rp.2)
      (fun t => ∀ k, t.countP (Event.isPackageCreationAt k)
        = t.countP (Event.isPackageAbsentAnswer k))
      (by simp) (fun t1 t2 h1 h2 k => by simp [h1 k, h2 k]) _ (fun rp _ s1 k => ?_) s
    obtain ⟨re, cb, pe, ke, hs | hs | ⟨ce, hs⟩ | hs | hs⟩ :=
      checkDetailsBody_shape bt rp.1 rp.2 s1 <;>
    simp [hs.1, List.countP_cons, Event.isPackageCreationAt, Event.isPackageAbsentAnswer,
      repoQueryEvent, repoCreateEvent, packageQueryEvent, packageCreateEvent]
  · unfold checkDetails
    rw [forEach_nested]
    refine forEach_trace_local (fun rp : Repo × Package => checkDetailsBody bt rp.1 rp.2)
      (fun t => ∀ params e, Event.CreatePackage params e ∈ t →
        ∃ r ∈ config.Repos, ∃ pk ∈ r.Packages, params = { pk.Config with Path := pkgString r pk })
      (by simp) (fun t1 t2 h1 h2 params e hm => ?_) _ (fun rp hrp s1 params e hm => ?_) s
    · rcases List.mem_append.1 hm with hm | hm
      · exact h1 params e hm
      · exact h2 params e hm
    · rw [mem_manifestPairs] at hrp
      refine ⟨rp.1, hrp.1, rp.2, hrp.2, ?_⟩
      obtain ⟨re, cb, pe, ke, hs | hs | ⟨ce, hs⟩ | hs | hs⟩ :=
        checkDetailsBody_shape bt rp.1 rp.2 s1 <;>
      · rw [hs.1] at hm
        simp [repoQueryEvent, repoCreateEvent, packageQueryEvent, packageCreateEvent] at hm
        try exact hm.1

/-- An instance of C6 on a remote that remembers what has been created: the
second package of the demo manifest is reached with its repository present,
its query answers false and its creation follows. -/
theorem createPackage_iff_absent_witness :
    demoConfig.Repos = [] ++ demoRepo "r1" [demoPackage "p1" true, demoPackage "p2" false]
        :: [demoRepo "r0" []] ∧
      (demoRepo "r1" [demoPackage "p1" true, demoPackage "p2" false]).Packages
        = [demoPackage "p1" true] ++ demoPackage "p2" false :: [] ∧
      (checkDetails growingRemote
        (manifestUpTo demoConfig [] (demoRepo "r1" [demoPackage "p1" true, demoPackage "p2" false])
          [demoPackage "p1" true]) ([], [])).exit = none ∧
      (growingRemote.IsRepoExists
        (repoPath (demoRepo "r1" [demoPackage "p1" true, demoPackage "p2" false]))
        (checkDetails growingRemote
          (manifestUpTo demoConfig []
            (demoRepo "r1" [demoPackage "p1" true, demoPackage "p2" false])
            [demoPackage "p1" true]) ([], [])).state).1.1 = true ∧
      (∃ head T,
        (checkDetails growingRemote
          (manifestUpTo demoConfig []
            (demoRepo "r1" [demoPackage "p1" true, demoPackage "p2" false])
            ([demoPackage "p1" true] ++ [demoPackage "p2" false])) ([], [])).trace
          = (checkDetails growingRemote
              (manifestUpTo demoConfig []
                (demoRepo "r1" [demoPackage "p1" true, demoPackage "p2" false])
                [demoPackage "p1" true]) ([], [])).trace ++ head ++
            Event.IsPackageExists "acme/r1/p2" false none ::
            [Event.CreatePackage ⟨"acme/r1/p2", "pkg-p2"⟩ none] ∧
        head.filter Event.isPackageEvent = [] ∧
        (checkDetails growingRemote demoConfig ([], [])).trace
          = (checkDetails growingRemote
              (manifestUpTo demoConfig []
                (demoRepo "r1" [demoPackage "p1" true, demoPackage "p2" false])
                ([demoPackage "p1" true] ++ [demoPackage "p2" false])) ([], [])).trace ++ T) :=
  ⟨rfl, rfl, by decide, by decide,
    (createPackage_iff_absent growingRemote demoConfig ([], []) []
      [demoRepo "r0" []] (demoRepo "r1" [demoPackage "p1" true, demoPackage "p2" false])
      [demoPackage "p1" true] [] (demoPackage "p2" false) rfl rfl (by decide)
      (Or.inl (by decide))).1⟩

theorem errImpliesAbsent_timeoutRemote : ErrImpliesAbsent timeoutRemote :=
  ⟨fun _ _ _ => rfl, fun _ _ _ => rfl⟩

/-- C5: let the services manager report false beside every existence-check
error. Take the iteration of `checkDetails` for the package `pack` under the
repository `repo` of the manifest, reached by the pass. If its `IsRepoExists`
query returns an error, the calls of the iteration begin with that query
followed at once by the `CreateReposIfNeeded` call for the repository. If the
iteration reaches the package and its `IsPackageExists` query returns an error,
the calls of the iteration end with that query followed at once by the
`CreatePackage` call for the package. The error itself never ends the run:
replacing every existence-check error by `nil` changes neither the calls of the
pass, nor the remote state it leaves, nor its exit status, and a pass that ends
early ends at a failed creation call. -/
theorem check_error_falls_through (bt : ServicesManager σ) (config : BintrayConfig) (s : σ)
    (pre post : List Repo) (repo : Repo) (ppre ppost : List Package) (pack : Package)
    (herr : ErrImpliesAbsent bt)
    (hrepos : config.Repos = pre ++ repo :: post)
    (hpacks : repo.Packages = ppre ++ pack :: ppost)
    (hbefore : (checkDetails bt (manifestUpTo config pre repo ppre) s).exit = none) :
    (∀ e, (bt.IsRepoExists (repoPath repo)
          (checkDetails bt (manifestUpTo config pre repo ppre) s).state).1.2 = some e →
        ∃ rest T,
          (checkDetails bt (manifestUpTo config pre repo (ppre ++ [pack])) s).trace
            = (checkDetails bt (manifestUpTo config pre repo ppre) s).trace ++
              repoQueryEvent repo false (some e) ::
              repoCreateEvent repo
                (repoCreation bt repo
                  (checkDetails bt (manifestUpTo config pre repo ppre) s).state).1.1
                (repoCreation bt repo
                  (checkDetails bt (manifestUpTo config pre repo ppre) s).state).1.2 ::
              rest ∧
          (checkDetails bt config s).trace
            = (checkDetails bt (manifestUpTo config pre repo (ppre ++ [pack])) s).trace ++ T) ∧
      (∀ e,
        ((bt.IsRepoExists (repoPath repo)
            (checkDetails bt (manifestUpTo config pre repo ppre) s).state).1.1 = true ∨
          (repoCreation bt repo
            (checkDetails bt (manifestUpTo config pre repo ppre) s).state).1.2 = none) →
        (packageAnswer bt repo pack
          (checkDetails bt (manifestUpTo config pre repo ppre) s).state).1.2 = some e →
        ∃ head T,
          (checkDetails bt (manifestUpTo config pre repo (ppre ++ [pack])) s).trace
            = (checkDetails bt (manifestUpTo config pre repo ppre) s).trace ++ head ++
              [packageQueryEvent repo pack false (some e),
                packageCreateEvent repo pack
                  (bt.CreatePackage { pack.Config with Path := pkgString repo pack }
                    (packageAnswer bt repo pack
                      (checkDetails bt (manifestUpTo config pre repo ppre) s).state).2).1] ∧
          head.filter Event.isPackageEvent = [] ∧
          (checkDetails bt config s).trace
            = (checkDetails bt (manifestUpTo config pre repo (ppre ++ [pack])) s).trace ++ T) ∧
      checkDetails (ignoreCheckErrors bt) config s
        = ⟨(checkDetails bt config s).trace.map Event.dropCheckError,
            (checkDetails bt config s).state, (checkDetails bt config s).exit⟩ ∧
      EndsAtFailure (checkDetails bt config s) := by
  obtain ⟨hupto, T, hT⟩ := checkDetails_iteration bt config pre post repo ppre ppost pack
    hrepos hpacks s hbefore
  refine ⟨fun e he => ?_, fun e hreach he => ?_, ?_, endsAtFailure_checkDetails bt config s⟩
  · have hok := herr.1 (repoPath repo) _ (by rw [he]; simp)
    obtain ⟨rest, hbody, _⟩ := checkDetailsBody_of_absent bt repo pack _ hok
    exact ⟨rest, T, by rw [hupto, hbody, he], hT⟩
  · have hok : (packageAnswer bt repo pack
        (checkDetails bt (manifestUpTo config pre repo ppre) s).state).1.1 = false :=
      herr.2 _ _ (by unfold packageAnswer at he; rw [he]; simp)
    obtain ⟨head, hbody, hhead⟩ := checkDetailsBody_of_reached bt repo pack _ hreach
    refine ⟨head, T, ?_, hhead, hT⟩
    rw [hupto, hbody, hok, he, if_pos rfl, List.append_assoc]
  · unfold checkDetails
    rw [forEach_nested, forEach_nested]
    exact forEach_mapTrace Event.dropCheckError
      (fun rp : Repo × Package => checkDetailsBody bt rp.1 rp.2)
      (fun rp : Repo × Package => checkDetailsBody (ignoreCheckErrors bt) rp.1 rp.2)
      (fun rp s1 => checkDetailsBody_ignoreCheckErrors bt rp.1 rp.2 s1) _ s

/-- An instance of C5: every existence query fails with an error and reports
false, every creation succeeds; the iteration of the second package of the demo
manifest. -/
theorem check_error_falls_through_witness :
    ErrImpliesAbsent timeoutRemote ∧
      demoConfig.Repos = [] ++ demoRepo "r1" [demoPackage "p1" true, demoPackage "p2" false]
        :: [demoRepo "r0" []] ∧
      (demoRepo "r1" [demoPackage "p1" true, demoPackage "p2" false]).Packages
        = [demoPackage "p1" true] ++ demoPackage "p2" false :: [] ∧
      (checkDetails timeoutRemote
        (manifestUpTo demoConfig [] (demoRepo "r1" [demoPackage "p1" true, demoPackage "p2" false])
          [demoPackage "p1" true]) ()).exit = none ∧
      (∃ rest T,
        (checkDetails timeoutRemote
          (manifestUpTo demoConfig []
            (demoRepo "r1" [demoPackage "p1" true, demoPackage "p2" false])
            ([demoPackage "p1" true] ++ [demoPackage "p2" false])) ()).trace
          = (checkDetails timeoutRemote
              (manifestUpTo demoConfig []
                (demoRepo "r1" [demoPackage "p1" true, demoPackage "p2" false])
                [demoPackage "p1" true]) ()).trace ++
            Event.IsRepoExists ⟨"acme", "r1"⟩ false (some "timeout") ::
            Event.CreateReposIfNeeded ⟨"acme", "r1"⟩ ⟨"r1.json", "cfg-r1"⟩ "r1.json" true none ::
            rest ∧
        (checkDetails timeoutRemote demoConfig ()).trace
          = (checkDetails timeoutRemote
              (manifestUpTo demoConfig []
                (demoRepo "r1" [demoPackage "p1" true, demoPackage "p2" false])
                ([demoPackage "p1" true] ++ [demoPackage "p2" false])) ()).trace ++ T) ∧
      (∃ head T,
        (checkDetails timeoutRemote
          (manifestUpTo demoConfig []
            (demoRepo "r1" [demoPackage "p1" true, demoPackage "p2" false])
            ([demoPackage "p1" true] ++ [demoPackage "p2" false])) ()).trace
          = (checkDetails timeoutRemote
              (manifestUpTo demoConfig []
                (demoRepo "r1" [demoPackage "p1" true, demoPackage "p2" false])
                [demoPackage "p1" true]) ()).trace ++ head ++
            [Event.IsPackageExists "acme/r1/p2" false (some "timeout"),
              Event.CreatePackage ⟨"acme/r1/p2", "pkg-p2"⟩ none] ∧
        head.filter Event.isPackageEvent = [] ∧
        (checkDetails timeoutRemote demoConfig ()).trace
          = (checkDetails timeoutRemote
              (manifestUpTo demoConfig []
                (demoRepo "r1" [demoPackage "p1" true, demoPackage "p2" false])
                ([demoPackage "p1" true] ++ [demoPackage "p2" false])) ()).trace ++ T) :=
  ⟨errImpliesAbsent_timeoutRemote, rfl, rfl, rfl,
    (check_error_falls_through timeoutRemote demoConfig () []
      [demoRepo "r0" []] (demoRepo "r1" [demoPackage "p1" true, demoPackage "p2" false])
      [demoPackage "p1" true] [] (demoPackage "p2" false) errImpliesAbsent_timeoutRemote
      rfl rfl rfl).1 "timeout" rfl,
    (check_error_falls_through timeoutRemote demoConfig () []
      [demoRepo "r0" []] (demoRepo "r1" [demoPackage "p1" true, demoPackage "p2" false])
      [demoPackage "p1" true] [] (demoPackage "p2" false) errImpliesAbsent_timeoutRemote
      rfl rfl rfl).2.1 "timeout" (Or.inr rfl) rfl⟩

theorem cleanup_upTo (bt : ServicesManager σ) (config : BintrayConfig) (pre : List Repo)
    (repo : Repo) (ps : List Package) (s : σ) :
    (cleanup bt (manifestUpTo config pre repo ps) s).trace
      = (cleanup bt (manifestUpTo config pre repo []) s).trace ++
        (forEach (fun pack => cleanupBody bt repo pack) ps
          (cleanup bt (manifestUpTo config pre repo []) s).state).trace := by
  have h0 : cleanup bt (manifestUpTo config pre repo []) s
      = forEach (fun r => forEach (fun p => cleanupBody bt r p) r.Packages) pre s :=
    nested_upTo_nil (cleanupBody bt) pre repo s
  have hex := cleanup_exit bt (manifestUpTo config pre repo []) s
  rw [h0] at hex ⊢
  unfold cleanup manifestUpTo
  simp only []
  rw [forEach_append, andThen_of_exit_none _ _ hex, forEach_singleton]
  rfl

theorem cleanup_cut_repo (bt : ServicesManager σ) (config : BintrayConfig)
    (pre post : List Repo) (repo : Repo) (hrepos : config.Repos = pre ++ repo :: post) (s : σ) :
    ∃ T, (cleanup bt config s).trace
      = (cleanup bt (manifestUpTo config pre repo repo.Packages) s).trace ++ T := by
  have hsplit : pre ++ repo :: post = (pre ++ [repo]) ++ post := by simp
  refine ⟨(forEach (fun r => forEach (fun p => cleanupBody bt r p) r.Packages) post
    (cleanup bt (manifestUpTo config pre repo repo.Packages) s).state).trace, ?_⟩
  have hex := cleanup_exit bt (manifestUpTo config pre repo repo.Packages) s
  unfold cleanup manifestUpTo at hex ⊢
  simp only [] at hex ⊢
  rw [hrepos, hsplit, forEach_append, andThen_of_exit_none _ _ hex]

theorem cleanup_iteration (bt : ServicesManager σ) (config : BintrayConfig)
    (pre post : List Repo) (repo : Repo) (ppre ppost : List Package) (pack : Package)
    (hrepos : config.Repos = pre ++ repo :: post)
    (hpacks : repo.Packages = ppre ++ pack :: ppost) (s : σ) :
    (cleanup bt (manifestUpTo config pre repo (ppre ++ [pack])) s).trace
        = (cleanup bt (manifestUpTo config pre repo ppre) s).trace ++
          (cleanupBody bt repo pack (cleanup bt (manifestUpTo config pre repo ppre) s).state).trace ∧
      ∃ T, (cleanup bt config s).trace
        = (cleanup bt (manifestUpTo config pre repo (ppre ++ [pack])) s).trace ++ T := by
  constructor
  · have h : cleanup bt (manifestUpTo config pre repo (ppre ++ [pack])) s
        = (cleanup bt (manifestUpTo config pre repo ppre) s).andThen (cleanupBody bt repo pack) :=
      nested_upTo_snoc (cleanupBody bt) (fun _ _ _ _ => rfl) pre repo ppre pack s
    rw [h, andThen_of_exit_none _ _ (cleanup_exit bt _ s)]
  · obtain ⟨K, hK⟩ := nested_cut (cleanupBody bt) (fun _ _ _ _ => rfl) pre post repo ppre
      ppost pack hpacks s
    have hfull : cleanup bt config s
        = (cleanup bt (manifestUpTo config pre repo (ppre ++ [pack])) s).andThen K := by
      unfold cleanup
      rw [hrepos]
      exact hK
    rw [hfull, andThen_trace]
    exact ⟨_, rfl⟩

/-- C10: `cleanup` never ends the process and no deletion error stops it: its
`DeletePackage` calls are exactly the packages of the manifest, flattened in
manifest order. In the iteration of each package of the manifest, whose calls
follow in the trace of the pass the calls made before it, the pass calls
`DeletePackage` once and then `ExecDeleteRepoRest` for the owning repository
exactly when the package deletion returned no error, and nothing more when it
returned one. Hence the calls the pass makes while it handles a repository of
the manifest are one package deletion for each of its packages, in order, and
as many deletions of that repository, all with its own path, as package
deletions succeeded: none for a repository without packages. Over the whole
pass the repository deletions are as many as the successful package deletions
and each belongs to a repository of the manifest that has a package. -/
theorem cleanup_deletes_repo_per_deleted_package (bt : ServicesManager σ)
    (config : BintrayConfig) (s : σ) :
    (cleanup bt config s).exit = none ∧
      packageDeletions (cleanup bt config s).trace
        = (config.Repos.flatMap fun repo => repo.Packages.map fun pack => pkgString repo pack) ∧
      (∀ pre post repo ppre ppost pack, config.Repos = pre ++ repo :: post →
        repo.Packages = ppre ++ pack :: ppost →
        ∃ T,
          (cleanup bt (manifestUpTo config pre repo (ppre ++ [pack])) s).trace
            = (cleanup bt (manifestUpTo config pre repo ppre) s).trace ++
              Event.DeletePackage (pkgString repo pack)
                (bt.DeletePackage (pkgString repo pack)
                  (cleanup bt (manifestUpTo config pre repo ppre) s).state).1 ::
              (if (bt.DeletePackage (pkgString repo pack)
                    (cleanup bt (manifestUpTo config pre repo ppre) s).state).1 = none then
                [Event.ExecDeleteRepoRest (repoPath repo)
                  (bt.ExecDeleteRepoRest (repoPath repo)
                    (bt.DeletePackage (pkgString repo pack)
                      (cleanup bt (manifestUpTo config pre repo ppre) s).state).2).1]
               else []) ∧
          (cleanup bt config s).trace
            = (cleanup bt (manifestUpTo config pre repo (ppre ++ [pack])) s).trace ++ T) ∧
      (∀ pre post repo, config.Repos = pre ++ repo :: post →
        ∃ seg T,
          (cleanup bt (manifestUpTo config pre repo repo.Packages) s).trace
            = (cleanup bt (manifestUpTo config pre repo []) s).trace ++ seg ∧
          (cleanup bt config s).trace
            = (cleanup bt (manifestUpTo config pre repo repo.Packages) s).trace ++ T ∧
          packageDeletions seg = repo.Packages.map (fun pack => pkgString repo pack) ∧
          seg.countP Event.isRepoDeletion = seg.countP Event.isPackageDeleted ∧
          (∀ p e, Event.ExecDeleteRepoRest p e ∈ seg → p = repoPath repo) ∧
          (repo.Packages = [] → seg = [])) ∧
      (cleanup bt config s).trace.countP Event.isRepoDeletion
        = (cleanup bt config s).trace.countP Event.isPackageDeleted ∧
      (∀ p e, Event.ExecDeleteRepoRest p e ∈ (cleanup bt config s).trace →
        ∃ r ∈ config.Repos, r.Packages ≠ [] ∧ p = repoPath r) := by
  refine ⟨cleanup_exit bt config s, ?_, ?_, ?_, ?_, ?_⟩
  · unfold cleanup
    rw [forEach_nested, ← manifestPairs_flatMap_singleton]
    exact (forEach_filterMap (fun rp : Repo × Package => cleanupBody bt rp.1 rp.2) _
      (fun rp => [pkgString rp.1 rp.2])
      (fun rp s1 => ⟨(cleanupBody_facts bt rp.1 rp.2 s1).1,
        (cleanupBody_facts bt rp.1 rp.2 s1).2.1⟩) _ s).2
  · intro pre post repo ppre ppost pack hrepos hpacks
    obtain ⟨hupto, T, hT⟩ := cleanup_iteration bt config pre post repo ppre ppost pack
      hrepos hpacks s
    exact ⟨T, by rw [hupto, cleanupBody_trace], hT⟩
  · intro pre post repo hrepos
    obtain ⟨T, hT⟩ := cleanup_cut_repo bt config pre post repo hrepos s
    refine ⟨_, T, cleanup_upTo bt config pre repo repo.Packages s, hT, ?_, ?_, ?_, ?_⟩
    · have h := (forEach_filterMap (fun pack => cleanupBody bt repo pack)
        (fun ev => match ev with
          | .DeletePackage p _ => some p
          | _ => none)
        (fun pack => [pkgString repo pack])
        (fun pack s1 => ⟨(cleanupBody_facts bt repo pack s1).1,
          (cleanupBody_facts bt repo pack s1).2.1⟩) repo.Packages
        (cleanup bt (manifestUpTo config pre repo []) s).state).2
      unfold packageDeletions
      rw [h]
      induction repo.Packages with
      | nil => rfl
      | cons p ps ih => simp [ih]
    · exact forEach_trace_local (fun pack => cleanupBody bt repo pack)
        (fun t => t.countP Event.isRepoDeletion = t.countP Event.isPackageDeleted)
        (by simp) (fun t1 t2 h1 h2 => by simp [h1, h2]) _
        (fun pack _ s2 => (cleanupBody_facts bt repo pack s2).2.2.1) _
    · refine forEach_trace_local (fun pack => cleanupBody bt repo pack)
        (fun t => ∀ p e, Event.ExecDeleteRepoRest p e ∈ t → p = repoPath repo)
        (by simp) (fun t1 t2 h1 h2 p e hm => ?_) _
        (fun pack _ s2 => (cleanupBody_facts bt repo pack s2).2.2.2) _
      rcases List.mem_append.1 hm with hm | hm
      · exact h1 p e hm
      · exact h2 p e hm
    · intro hnil
      rw [hnil]
      rfl
  · unfold cleanup
    rw [forEach_nested]
    exact forEach_trace_local (fun rp : Repo × Package => cleanupBody bt rp.1 rp.2)
      (fun t => t.countP Event.isRepoDeletion = t.countP Event.isPackageDeleted)
      (by simp) (fun t1 t2 h1 h2 => by simp [h1, h2]) _
      (fun rp _ s1 => (cleanupBody_facts bt rp.1 rp.2 s1).2.2.1) s
  · unfold cleanup
    rw [forEach_nested]
    refine forEach_trace_local (fun rp : Repo × Package => cleanupBody bt rp.1 rp.2)
      (fun t => ∀ p e, Event.ExecDeleteRepoRest p e ∈ t →
        ∃ r ∈ config.Repos, r.Packages ≠ [] ∧ p = repoPath r)
      (by simp) (fun t1 t2 h1 h2 p e hm => ?_) _ (fun rp hrp s1 p e hm => ?_) s
    · rcases List.mem_append.1 hm with hm | hm
      · exact h1 p e hm
      · exact h2 p e hm
    · rw [mem_manifestPairs] at hrp
      exact ⟨rp.1, hrp.1, List.ne_nil_of_mem hrp.2,
        (cleanupBody_facts bt rp.1 rp.2 s1).2.2.2 p e hm⟩

/-- An instance of C10 on a remote that refuses to delete the package
`acme/r1/p1`, deletes every other package and fails every repository deletion:
the iteration of the refused package, the iteration of the deleted package, and
the repository without packages. -/
theorem cleanup_deletes_repo_per_deleted_package_witness :
    demoConfig.Repos = [] ++ demoRepo "r1" [demoPackage "p1" true, demoPackage "p2" false]
        :: [demoRepo "r0" []] ∧
      (demoRepo "r1" [demoPackage "p1" true, demoPackage "p2" false]).Packages
        = [] ++ demoPackage "p1" true :: [demoPackage "p2" false] ∧
      (∃ T,
        (cleanup pickyRemote
          (manifestUpTo demoConfig []
            (demoRepo "r1" [demoPackage "p1" true, demoPackage "p2" false])
            ([] ++ [demoPackage "p1" true])) ()).trace
          = (cleanup pickyRemote
              (manifestUpTo demoConfig []
                (demoRepo "r1" [demoPackage "p1" true, demoPackage "p2" false]) []) ()).trace ++
            Event.DeletePackage "acme/r1/p1" (some "busy") :: [] ∧
        (cleanup pickyRemote demoConfig ()).trace
          = (cleanup pickyRemote
              (manifestUpTo demoConfig []
                (demoRepo "r1" [demoPackage "p1" true, demoPackage "p2" false])
                ([] ++ [demoPackage "p1" true])) ()).trace ++ T) ∧
      (demoRepo "r1" [demoPackage "p1" true, demoPackage "p2" false]).Packages
        = [demoPackage "p1" true] ++ demoPackage "p2" false :: [] ∧
      (∃ T,
        (cleanup pickyRemote
          (manifestUpTo demoConfig []
            (demoRepo "r1" [demoPackage "p1" true, demoPackage "p2" false])
            ([demoPackage "p1" true] ++ [demoPackage "p2" false])) ()).trace
          = (cleanup pickyRemote
              (manifestUpTo demoConfig []
                (demoRepo "r1" [demoPackage "p1" true, demoPackage "p2" false])
                [demoPackage "p1" true]) ()).trace ++
            Event.DeletePackage "acme/r1/p2" none ::
            [Event.ExecDeleteRepoRest ⟨"acme", "r1"⟩ (some "locked")] ∧
        (cleanup pickyRemote demoConfig ()).trace
          = (cleanup pickyRemote
              (manifestUpTo demoConfig []
                (demoRepo "r1" [demoPackage "p1" true, demoPackage "p2" false])
                ([demoPackage "p1" true] ++ [demoPackage "p2" false])) ()).trace ++ T) ∧
      demoConfig.Repos = [demoRepo "r1" [demoPackage "p1" true, demoPackage "p2" false]] ++
        demoRepo "r0" [] :: [] ∧
      (cleanup pickyRemote demoConfig ()).trace
        = [Event.DeletePackage "acme/r1/p1" (some "busy"),
            Event.DeletePackage "acme/r1/p2" none,
            Event.ExecDeleteRepoRest ⟨"acme", "r1"⟩ (some "locked")] ∧
      (∃ seg T,
        (cleanup pickyRemote
          (manifestUpTo demoConfig [demoRepo "r1" [demoPackage "p1" true, demoPackage "p2" false]]
            (demoRepo "r0" []) (demoRepo "r0" []).Packages) ()).trace
          = (cleanup pickyRemote
              (manifestUpTo demoConfig
                [demoRepo "r1" [demoPackage "p1" true, demoPackage "p2" false]]
                (demoRepo "r0" []) []) ()).trace ++ seg ∧
        (cleanup pickyRemote demoConfig ()).trace
          = (cleanup pickyRemote
              (manifestUpTo demoConfig
                [demoRepo "r1" [demoPackage "p1" true, demoPackage "p2" false]]
                (demoRepo "r0" []) (demoRepo "r0" []).Packages) ()).trace ++ T ∧
        packageDeletions seg
          = (demoRepo "r0" []).Packages.map (fun pack => pkgString (demoRepo "r0" []) pack) ∧
        seg.countP Event.isRepoDeletion = seg.countP Event.isPackageDeleted ∧
        (∀ p e, Event.ExecDeleteRepoRest p e ∈ seg → p = repoPath (demoRepo "r0" [])) ∧
        ((demoRepo "r0" []).Packages = [] → seg = [])) :=
  ⟨rfl, rfl,
    (cleanup_deletes_repo_per_deleted_package pickyRemote demoConfig ()).2.2.1 []
      [demoRepo "r0" []] (demoRepo "r1" [demoPackage "p1" true, demoPackage "p2" false])
      [] [demoPackage "p2" false] (demoPackage "p1" true) rfl rfl,
    rfl,
    (cleanup_deletes_repo_per_deleted_package pickyRemote demoConfig ()).2.2.1 []
      [demoRepo "r0" []] (demoRepo "r1" [demoPackage "p1" true, demoPackage "p2" false])
      [demoPackage "p1" true] [] (demoPackage "p2" false) rfl rfl,
    rfl, by decide,
    (cleanup_deletes_repo_per_deleted_package pickyRemote demoConfig ()).2.2.2.1
      [demoRepo "r1" [demoPackage "p1" true, demoPackage "p2" false]] [] (demoRepo "r0" []) rfl⟩

end JfrogClient
